import Mathlib

/-!
Verification of the AgentOC e-mail processing pipeline.

This file gives a shallow embedding of the core pipeline:
  - `agents/reply_templates.py` (`process_classified_email`, the template
    table, price parsing, discount arithmetic),
  - `db/memory.py` (`get_client`, `decrement_discount`, `save_email`,
    `get_email_history`, `email_already_processed`),
  - `tools/gmail_poller.py` (`poll_gmail` in its Active state),
  - the classification-normalisation block of `agents/email_agent.py`
    (`_find_value` and the `EmailClassification(...)` construction).

Python strings are modelled as `List Char`, Python ints as `Int`, Python
floats as `ℚ` (the exact value; binary rounding is abstracted away), sql
tables as Lean lists in insertion order.  External collaborators (the LLM
classifier, Gmail fetches, Telegram) are oracle parameters.
-/

namespace AgentOC

/-- The character `{` (written by code to keep template literals readable). -/
def ob : Char := Char.ofNat 123

/-- The character `}`. -/
def cb : Char := Char.ofNat 125

/-- Python `str.strip()` (whitespace at both ends). -/
def stripWs (s : List Char) : List Char :=
  ((s.dropWhile Char.isWhitespace).reverse.dropWhile Char.isWhitespace).reverse

/-- Python `email.lower().strip()`, used to normalise client e-mail keys. -/
def lowerStrip (s : List Char) : List Char :=
  stripWs (s.map Char.toLower)

/-!  ### Python `str.replace` (all non-overlapping occurrences, left to right)

`replaceAllAux` is fuel-based so that it is structural (good kernel
reduction); `fuel = s.length` always suffices because each step consumes at
least one character.  The program never calls `replace` with an empty
pattern, and the embedding returns the input unchanged in that case. -/

def replaceAllAux (pat rep : List Char) : Nat → List Char → List Char
  | _, [] => []
  | 0, s => s
  | fuel + 1, c :: rest =>
      if pat.isPrefixOf (c :: rest) && !pat.isEmpty then
        rep ++ replaceAllAux pat rep fuel (rest.drop (pat.length - 1))
      else
        c :: replaceAllAux pat rep fuel rest

/-- Python `s.replace(pat, rep)`. -/
def replaceAll (pat rep s : List Char) : List Char :=
  replaceAllAux pat rep s.length s

/-!  ### Python `float(...)` on decimal literals

Models `float(price_clean)`: optional surrounding whitespace, optional
sign, decimal digits with at most one dot, optional `e`/`E` exponent.
(Python additionally accepts `inf`/`nan` and underscores between digits;
those are not produced by price texts and are treated as unparsable here.) -/

def digitsVal (s : List Char) : Nat :=
  s.foldl (fun a c => 10 * a + (c.toNat - 48)) 0

def allDigits (s : List Char) : Bool :=
  s.all Char.isDigit

def parseUnsignedMantissa (s : List Char) : Option ℚ :=
  match s.splitOn '.' with
  | [ip] =>
      if ip ≠ [] ∧ allDigits ip then some (digitsVal ip : ℚ) else none
  | [ip, fp] =>
      if (ip ≠ [] ∨ fp ≠ []) ∧ allDigits ip ∧ allDigits fp then
        some ((digitsVal ip : ℚ) + (digitsVal fp : ℚ) / (10 : ℚ) ^ fp.length)
      else none
  | _ => none

def parseSignedMantissa : List Char → Option ℚ
  | '+' :: r => parseUnsignedMantissa r
  | '-' :: r => (parseUnsignedMantissa r).map Neg.neg
  | s => parseUnsignedMantissa s

def parseExp : List Char → Option ℤ
  | '+' :: r => if r ≠ [] ∧ allDigits r then some (digitsVal r : ℤ) else none
  | '-' :: r => if r ≠ [] ∧ allDigits r then some (-(digitsVal r : ℤ)) else none
  | r => if r ≠ [] ∧ allDigits r then some (digitsVal r : ℤ) else none

def parsePyFloat (s : List Char) : Option ℚ :=
  let t := (stripWs s).map Char.toLower
  match t.splitOn 'e' with
  | [m] => parseSignedMantissa m
  | [m, ex] => do
      let mv ← parseSignedMantissa m
      let ev ← parseExp ex
      pure (mv * (10 : ℚ) ^ ev)
  | _ => none

/-!  ### Rendering numbers (Python `str(int)` and `f"{x:.2f}"`) -/

def digitChar (n : Nat) : Char :=
  match n with
  | 0 => '0' | 1 => '1' | 2 => '2' | 3 => '3' | 4 => '4'
  | 5 => '5' | 6 => '6' | 7 => '7' | 8 => '8' | _ => '9'

def natToCharsAux : Nat → Nat → List Char
  | 0, _ => []
  | _ + 1, 0 => []
  | fuel + 1, n => natToCharsAux fuel (n / 10) ++ [digitChar (n % 10)]

/-- Decimal rendering of a natural number. -/
def natToChars (n : Nat) : List Char :=
  if n = 0 then ['0'] else natToCharsAux n n

/-- Python `str()` of an int. -/
def intToChars (d : Int) : List Char :=
  if d < 0 then '-' :: natToChars d.natAbs else natToChars d.natAbs

/-- Round to the nearest integer, ties to even (the rounding used when a
float is formatted; float binary representation is abstracted away). -/
def roundHalfEven (q : ℚ) : ℤ :=
  let f : ℤ := Int.floor q
  let r : ℚ := q - (f : ℚ)
  if r < 1 / 2 then f
  else if 1 / 2 < r then f + 1
  else if f % 2 = 0 then f else f + 1

/-- The fractional part, padded to exactly two digits. -/
def twoPad (n : Nat) : List Char :=
  if n < 10 then '0' :: natToChars n else natToChars n

/-- Python `f"{x:.2f}"`. -/
def formatF2 (q : ℚ) : List Char :=
  let cents : ℤ := roundHalfEven (q * 100)
  let a : Nat := cents.natAbs
  (if cents < 0 then ['-'] else []) ++ natToChars (a / 100) ++ '.' :: twoPad (a % 100)

/-!  ### Client records and the memory layer (`db/memory.py`) -/

/-- A row of the `clients` table (`db/models.py`), via `Client.to_dict`. -/
structure Client where
  email : List Char
  name : List Char
  payment_type : List Char
  zelle_address : List Char
  discount_percent : Int
  discount_orders_left : Int
deriving DecidableEq, Repr

/-- `get_client`: first row whose e-mail equals the normalised key. -/
def get_client (db : List Client) (email : List Char) : Option Client :=
  db.find? (fun c => c.email == lowerStrip email)

/-- Update the first list element satisfying `p` (SQL `filter_by(...).first()`
followed by a mutation and commit). -/
def updateFirst (p : α → Bool) (f : α → α) : List α → List α
  | [] => []
  | c :: rest => if p c then f c :: rest else c :: updateFirst p f rest

/-- The mutation performed by `decrement_discount` on the found client:
decrement `discount_orders_left` when positive and reset
`discount_percent` when the counter reaches 0 in the same commit. -/
def decClient (c : Client) : Client :=
  if 0 < c.discount_orders_left then
    { c with
      discount_orders_left := c.discount_orders_left - 1
      discount_percent :=
        if c.discount_orders_left - 1 = 0 then 0 else c.discount_percent }
  else c

/-- `decrement_discount` (`db/memory.py`). -/
def decrement_discount (db : List Client) (email : List Char) : List Client :=
  updateFirst (fun c => c.email == lowerStrip email) decClient db

/-!  ### Reply templates (`agents/reply_templates.py`) -/

def tokPRICE : List Char := "{PRICE}".toList
def tokDISCOUNT : List Char := "{DISCOUNT}".toList
def tokFINAL : List Char := "{FINAL_PRICE}".toList
def tokZELLE : List Char := "{ZELLE_ADDRESS}".toList
def tokNAME : List Char := "{CUSTOMER_NAME}".toList
def tokSTREET : List Char := "{CUSTOMER_STREET}".toList
def tokCSZ : List Char := "{CUSTOMER_CITY_STATE_ZIP}".toList
def tokTRACK : List Char := "{TRACKING_URL}".toList

/-- The eight placeholder tokens substituted by `process_classified_email`. -/
def Tokens : List (List Char) :=
  [tokPRICE, tokDISCOUNT, tokFINAL, tokZELLE, tokNAME, tokSTREET, tokCSZ, tokTRACK]

/-- Template for `("new_order", "prepay")`, verbatim from the source. -/
def tmplNewOrderPrepay : List Char :=
  ("Thank you so much for placing an order\n" ++
   "Your total is {PRICE} - {DISCOUNT}% = {FINAL_PRICE} FREE shipping\n" ++
   "\n" ++
   "!!! Zelle ( In memo or comments don\x27t put anything please ! ) use email below\n" ++
   "\n" ++
   "{ZELLE_ADDRESS}\n" ++
   "\n" ++
   "If paid today, We will ship your order Tonight from USA\n" ++
   "Your order will be delivered in 2-4 days max.\n" ++
   "Thank you!").toList

/-- Template for `("new_order", "postpay")`, verbatim from the source. -/
def tmplNewOrderPostpay : List Char :=
  ("Hello!\n" ++
   "Thank you very much for placing an order\n" ++
   "We will ship your package ASAP\n" ++
   "Total is {PRICE} - {DISCOUNT}% = {FINAL_PRICE} FREE shipping applied\n" ++
   "Pay when received as always via Zelle or Cash App\n" ++
   "ZELLE IS OUR PREFERRED METHOD OF PAYMENT\n" ++
   "When order is received and you are ready to pay " ++
   "( In memo or comments don\x27t put anything please ! )\n" ++
   "\n" ++
   "Here is your confirmation.\n" ++
   "Tracking With USPS will be updated on the USPS website " ++
   "till midnight on the day of the shipping\n" ++
   "{TRACKING_URL}\n" ++
   "\n" ++
   "{CUSTOMER_NAME}\n" ++
   "{CUSTOMER_STREET}\n" ++
   "{CUSTOMER_CITY_STATE_ZIP}").toList

/-- `REPLY_TEMPLATES`, keyed by `(situation, payment_type)`. -/
def REPLY_TEMPLATES (situation payment_type : List Char) : Option (List Char) :=
  if situation = "new_order".toList ∧ payment_type = "prepay".toList then
    some tmplNewOrderPrepay
  else if situation = "new_order".toList ∧ payment_type = "postpay".toList then
    some tmplNewOrderPostpay
  else none

/-!  ### `process_classified_email` -/

/-- The (Pydantic-validated) `EmailClassification` model. -/
structure EmailClassification where
  needs_reply : Bool
  situation : List Char
  client_email : List Char
  client_name : Option (List Char)
  order_id : Option (List Char)
  price : Option (List Char)
  customer_street : Option (List Char)
  customer_city_state_zip : Option (List Char)
  items : Option (List Char)
deriving DecidableEq, Repr

/-- The result dict built by `process_classified_email`.  (In the unknown-client
branch the source stores a `payment_type: "unknown"` placeholder dict in
`client_data`; that branch is modelled with `client_data = none`.) -/
structure ProcessResult where
  needs_reply : Bool
  situation : List Char
  client_email : List Char
  client_name : Option (List Char)
  client_found : Bool
  client_data : Option Client
  template_used : Bool
  draft_reply : Option (List Char)
  needs_ai_fallback : Bool
deriving DecidableEq, Repr

/-- `price.replace("$", "").replace(",", "")`. -/
def priceClean (price : List Char) : List Char :=
  replaceAll [','] [] (replaceAll ['$'] [] price)

/-- `float(price_clean)` with the `except: price_num = 0.0` fallback. -/
def priceNum (price : List Char) : ℚ :=
  (parsePyFloat (priceClean price)).getD 0

/-- `apply_discount = discount > 0 and discount_left > 0 and price_num > 0`. -/
def applyDiscountB (discount discount_left : Int) (price_num : ℚ) : Bool :=
  decide (0 < discount) && decide (0 < discount_left) && decide (0 < price_num)

/-- `f"${price_num * (1 - discount / 100):.2f}"`. -/
def finalPriceVal (discount : Int) (price_num : ℚ) : List Char :=
  '$' :: formatF2 (price_num * (1 - (discount : ℚ) / 100))

/-- `classification.client_name or client["name"]` (Python `or`:
an empty string also falls through to the stored name). -/
def nameFallback (o : Option (List Char)) (stored : List Char) : List Char :=
  match o with
  | some n => if n = [] then stored else n
  | none => stored

/-- The eight placeholder substitutions, in source order. -/
def fillTemplate (template price discount_str final_price zelle name street csz :
    List Char) : List Char :=
  replaceAll tokTRACK "[tracking URL pending]".toList
    (replaceAll tokCSZ csz
      (replaceAll tokSTREET street
        (replaceAll tokNAME name
          (replaceAll tokZELLE zelle
            (replaceAll tokFINAL final_price
              (replaceAll tokDISCOUNT discount_str
                (replaceAll tokPRICE price template)))))))

/-- The price-line clean-up applied when no discount was given. -/
def noDiscountMid : List Char := " - 0% = ".toList

/-- `process_classified_email` (`agents/reply_templates.py`).  Returns the
result dict together with the client table after the side effect of
`decrement_discount`. -/
def process_classified_email (db : List Client) (c : EmailClassification) :
    ProcessResult × List Client :=
  let base : ProcessResult :=
    { needs_reply := c.needs_reply
      situation := c.situation
      client_email := c.client_email
      client_name := c.client_name
      client_found := false
      client_data := none
      template_used := false
      draft_reply := none
      needs_ai_fallback := false }
  if c.needs_reply = false then
    ({ base with draft_reply := some "(No reply needed)".toList }, db)
  else
    match get_client db c.client_email with
    | none => ({ base with needs_ai_fallback := true }, db)
    | some client =>
      match REPLY_TEMPLATES c.situation client.payment_type with
      | none =>
          ({ base with
              client_found := true
              client_data := some client
              needs_ai_fallback := true }, db)
      | some template =>
          let price := c.price.getD []
          let discount := client.discount_percent
          let discount_left := client.discount_orders_left
          let price_num := priceNum price
          let app := applyDiscountB discount discount_left price_num
          let final_price := if app then finalPriceVal discount price_num else price
          let discount_str := if app then intToChars discount else ['0']
          let reply :=
            fillTemplate template price discount_str final_price
              client.zelle_address (nameFallback c.client_name client.name)
              (c.customer_street.getD []) (c.customer_city_state_zip.getD [])
          let reply :=
            if app = false ∧ price ≠ [] then
              replaceAll (price ++ noDiscountMid ++ price) price reply
            else reply
          let db2 := if app then decrement_discount db c.client_email else db
          ({ base with
              client_found := true
              client_data := some client
              template_used := true
              draft_reply := some reply }, db2)

/-- The draft built in the template branch of `process_classified_email`
(the same let-chain as in the source, factored out for reasoning). -/
def procReply (t : List Char) (c : EmailClassification) (cl : Client) : List Char :=
  let price := c.price.getD []
  let price_num := priceNum price
  let app := applyDiscountB cl.discount_percent cl.discount_orders_left price_num
  let final_price := if app then finalPriceVal cl.discount_percent price_num else price
  let discount_str := if app then intToChars cl.discount_percent else ['0']
  let reply :=
    fillTemplate t price discount_str final_price cl.zelle_address
      (nameFallback c.client_name cl.name) (c.customer_street.getD [])
      (c.customer_city_state_zip.getD [])
  if app = false ∧ price ≠ [] then
    replaceAll (price ++ noDiscountMid ++ price) price reply
  else reply

/-!  ### E-mail history store (`db/memory.py`, `db/models.py`) -/

/-- A row of the `email_history` table (`EmailHistory.to_dict` plus the
`gmail_message_id` column carrying the uniqueness constraint). -/
structure EmailRec where
  client_email : List Char
  direction : List Char
  subject : List Char
  body : List Char
  situation : List Char
  gmail_message_id : Option (List Char)
  created_at : Nat
deriving DecidableEq, Repr

/-- `email_already_processed`: does a row with this Gmail message id exist? -/
def email_already_processed (store : List EmailRec) (g : List Char) : Bool :=
  store.any (fun r => r.gmail_message_id == some g)

/-- `save_email`: append a row; the unique constraint on `gmail_message_id`
makes a duplicate insert fail (logged and rolled back), leaving the store
unchanged. -/
def save_email (store : List EmailRec) (r : EmailRec) : List EmailRec :=
  match r.gmail_message_id with
  | some g => if email_already_processed store g then store else store ++ [r]
  | none => store ++ [r]

/-- Number of stored rows carrying a given Gmail message id. -/
def countGid (store : List EmailRec) (g : List Char) : Nat :=
  (store.filter (fun r => r.gmail_message_id == some g)).length

/-- `_PRIORITY_SCORES` with the `.get(situation, 1)` default. -/
def priorityScore (s : List Char) : Nat :=
  if s = "new_order".toList then 3
  else if s = "discount_request".toList then 3
  else if s = "payment_question".toList then 2
  else if s = "shipping_timeline".toList then 2
  else if s = "other".toList then 1
  else if s = "tracking".toList then 0
  else if s = "payment_received".toList then 0
  else 1

/-- Chronological order on history rows (ascending `created_at`). -/
def chronoLe (a b : EmailRec) : Prop := a.created_at ≤ b.created_at

/-- Reverse chronological order (the SQL `order_by(created_at.desc())`). -/
def chronoGe (a b : EmailRec) : Prop := b.created_at ≤ a.created_at

/-- Descending order on the score component (Python stable
`sort(key=lambda x: x[0], reverse=True)`). -/
def scoreGe (a b : Nat × EmailRec) : Prop := b.1 ≤ a.1

instance : DecidableRel chronoLe :=
  fun a b => inferInstanceAs (Decidable (a.created_at ≤ b.created_at))

instance : DecidableRel chronoGe :=
  fun a b => inferInstanceAs (Decidable (b.created_at ≤ a.created_at))

instance : DecidableRel scoreGe :=
  fun a b => inferInstanceAs (Decidable (b.1 ≤ a.1))

instance : IsTotal EmailRec chronoLe :=
  ⟨fun a b => Nat.le_total a.created_at b.created_at⟩

instance : IsTrans EmailRec chronoLe :=
  ⟨fun _ _ _ h1 h2 => Nat.le_trans h1 h2⟩

instance : IsTotal EmailRec chronoGe :=
  ⟨fun a b => Nat.le_total b.created_at a.created_at⟩

instance : IsTrans EmailRec chronoGe :=
  ⟨fun _ _ _ h1 h2 => Nat.le_trans h2 h1⟩

instance : IsTotal (Nat × EmailRec) scoreGe :=
  ⟨fun a b => Nat.le_total b.1 a.1⟩

instance : IsTrans (Nat × EmailRec) scoreGe :=
  ⟨fun _ _ _ h1 h2 => Nat.le_trans h2 h1⟩

/-- The database fetch inside `get_email_history`: rows of the client,
newest first, limited to 50.  (Ties on `created_at` keep table order;
the model sorts stably.) -/
def fetchRows (store : List EmailRec) (client_email : List Char) : List EmailRec :=
  ((store.filter (fun r => r.client_email == lowerStrip client_email)).insertionSort
      chronoGe).take 50

/-- `get_email_history` (`db/memory.py`).  `max_total` is 10 at every call
site; the model assumes `max_total ≥ len(recent)` (true for 10), so the
Python slice `scored[:remaining_slots]` is a plain `take`. -/
def get_email_history (store : List EmailRec) (client_email : List Char)
    (max_total : Nat) : List EmailRec :=
  let rows := fetchRows store client_email
  if rows.isEmpty then []
  else
    let recent := rows.take 3
    let earlier := rows.drop 3
    let scored := earlier.map (fun row => (priorityScore row.situation, row))
    let sortedScored := scored.insertionSort scoreGe
    let remaining_slots := max_total - recent.length
    let selected_earlier := (sortedScored.take remaining_slots).map Prod.snd
    let combined := recent ++ selected_earlier
    combined.insertionSort chronoLe

/-!  ### Gmail poller (`tools/gmail_poller.py`), Active state

`poll_gmail` is modelled in its Active state (a cursor is present and
`get_new_messages` returned a batch).  History positions are numeric.
Per-message processing (`client.get_message` + `classify_and_process` +
the Telegram delivery) is an oracle `pipe`: `none` means an exception was
raised for that message (caught by the per-message handler), `some (inb,
outb?)` means the pipeline completed and saved an inbound row (the source
passes `gmail_message_id=msg_id` to `save_email`) and optionally an
outbound row (saved without a Gmail id).  The ghost field `attempted`
records which messages reached the processing call (and hence the
classification call), for observability only. -/

structure PollMsg where
  msg_id : List Char
  history_id : Option Nat
deriving DecidableEq, Repr

structure PollSt where
  store : List EmailRec
  latest : Nat
  attempted : List (List Char)
  processed : Nat
deriving Repr

/-- One iteration of the message loop in `poll_gmail`. -/
def poll_step (pipe : List Char → Option (EmailRec × Option EmailRec))
    (st : PollSt) (m : PollMsg) : PollSt :=
  if email_already_processed st.store m.msg_id then st
  else
    let st1 : PollSt := { st with attempted := st.attempted ++ [m.msg_id] }
    let st2 : PollSt :=
      match pipe m.msg_id with
      | none => st1
      | some (inb, outb) =>
          let store1 := save_email st1.store { inb with gmail_message_id := some m.msg_id }
          let store2 :=
            match outb with
            | some o => save_email store1 { o with gmail_message_id := none }
            | none => store1
          { st1 with store := store2, processed := st1.processed + 1 }
    match m.history_id with
    | some h => { st2 with latest := h }
    | none => st2

/-- The Active-state poll cycle: fold the batch, starting from the stored
cursor; the final `latest` is what `set_gmail_state` persists. -/
def poll_gmail (pipe : List Char → Option (EmailRec × Option EmailRec))
    (history_id : Nat) (new_messages : List PollMsg) (store : List EmailRec) :
    PollSt :=
  new_messages.foldl (poll_step pipe)
    { store := store, latest := history_id, attempted := [], processed := 0 }

/-- Modelled from the amended claim: the cursor after a cycle is the
history position of the last fetched candidate that is not skipped by the
dedup check (against the store at the start of the cycle) and that carries
a history position; the prior cursor if there is none. -/
def lastSeenCursor (cursor : Nat) (store : List EmailRec)
    (msgs : List PollMsg) : Nat :=
  (((msgs.filter (fun m => !email_already_processed store m.msg_id)).filterMap
      (fun m => m.history_id)).getLast?).getD cursor

/-!  ### Classification normalisation (`agents/email_agent.py`)

The untyped JSON payload returned by the classifier is modelled by
`PyVal`; `_find_value` and the `EmailClassification(...)` argument
expressions are translated verbatim.  (The subsequent Pydantic type
validation of the resolved values is outside this model.) -/

inductive PyVal where
  | pynone : PyVal
  | pystr : List Char → PyVal
  | pybool : Bool → PyVal
  | pyint : Int → PyVal
  | pylist : List PyVal → PyVal
  | pydict : List (List Char × PyVal) → PyVal

/-- `key in data and data[key] is not None` followed by `data[key]`. -/
def lookupNotNone (d : List (List Char × PyVal)) (key : List Char) : Option PyVal :=
  match d.find? (fun kv => kv.1 == key) with
  | some (_, PyVal.pynone) => none
  | some (_, v) => some v
  | none => none

/-- `_find_value(data, *keys)`: all aliases at top level first, then one
level of nested dicts (values outer, aliases inner). -/
def find_value (data : List (List Char × PyVal)) (keys : List (List Char)) :
    Option PyVal :=
  match keys.findSome? (fun k => lookupNotNone data k) with
  | some v => some v
  | none =>
      data.findSome? (fun kv =>
        match kv.2 with
        | PyVal.pydict d => keys.findSome? (fun k => lookupNotNone d k)
        | _ => none)

/-- Python truthiness of a payload value. -/
def pyTruthy : PyVal → Bool
  | PyVal.pynone => false
  | PyVal.pystr s => !s.isEmpty
  | PyVal.pybool b => b
  | PyVal.pyint n => decide (n ≠ 0)
  | PyVal.pylist l => !l.isEmpty
  | PyVal.pydict d => !d.isEmpty

/-- Python `x or d` applied to the result of `_find_value`. -/
def orDefault (v : Option PyVal) (dflt : PyVal) : PyVal :=
  match v with
  | some x => if pyTruthy x then x else dflt
  | none => dflt

/-- The `EmailClassification(...)` constructor arguments before Pydantic
validation: each field as resolved by the normalisation block. -/
structure RawClassification where
  needs_reply : PyVal
  situation : PyVal
  client_email : PyVal
  client_name : Option PyVal
  order_id : Option PyVal
  price : Option PyVal
  customer_street : Option PyVal
  customer_city_state_zip : Option PyVal
  items : Option PyVal

def situationKeys : List (List Char) :=
  ["situation".toList, "classification".toList, "category".toList]

def clientEmailKeys : List (List Char) :=
  ["client_email".toList, "real_customer_email".toList,
   "customer_email".toList, "email".toList]

def clientNameKeys : List (List Char) :=
  ["client_name".toList, "customer_name".toList, "name".toList, "firstname".toList]

def orderIdKeys : List (List Char) := ["order_id".toList, "order_number".toList]

def priceKeys : List (List Char) :=
  ["price".toList, "payment_amount".toList, "total".toList, "amount".toList]

def streetKeys : List (List Char) :=
  ["customer_street".toList, "street".toList, "street_address".toList,
   "address".toList]

def cszKeys : List (List Char) :=
  ["customer_city_state_zip".toList, "city_state_zip".toList]

def itemsKeys : List (List Char) :=
  ["items".toList, "products".toList, "order_items".toList]

/-- The robust field-extraction block of `classify_and_process`. -/
def normalize_classification (data : List (List Char × PyVal)) :
    RawClassification :=
  { needs_reply := (find_value data ["needs_reply".toList]).getD (PyVal.pybool true)
    situation := orDefault (find_value data situationKeys) (PyVal.pystr "other".toList)
    client_email := orDefault (find_value data clientEmailKeys) (PyVal.pystr [])
    client_name := find_value data clientNameKeys
    order_id := find_value data orderIdKeys
    price := find_value data priceKeys
    customer_street := find_value data streetKeys
    customer_city_state_zip := find_value data cszKeys
    items := find_value data itemsKeys }

/-- Modelled from the claim's words: a field is resolved by exact key-alias
match (top level first, then one nested level) and otherwise takes its
default — with no extra fallback for present-but-falsy values. -/
def spec_resolve (data : List (List Char × PyVal)) (keys : List (List Char))
    (dflt : PyVal) : PyVal :=
  (find_value data keys).getD dflt

/-!  ### Concrete fixtures used to instantiate the claims -/

/-- A prepay client with an active discount (5 percent, 2 orders left). -/
def clientTwoLeftW : Client :=
  ⟨"c1@x.com".toList, "Ann".toList, "prepay".toList, "z@x.com".toList, 5, 2⟩

/-- A prepay client with an active discount and one order left. -/
def clientOneLeftW : Client :=
  ⟨"c1@x.com".toList, "Ann".toList, "prepay".toList, "z@x.com".toList, 5, 1⟩

/-- A prepay client with a discount percent but no orders left. -/
def clientZeroLeftW : Client :=
  ⟨"c1@x.com".toList, "Ann".toList, "prepay".toList, "z@x.com".toList, 5, 0⟩

/-- A new-order classification with a parsable price. -/
def emailOrderW : EmailClassification :=
  ⟨true, "new_order".toList, "c1@x.com".toList, none, none,
    some "$200.00".toList, none, none, none⟩

/-- A new-order classification with a malformed price text. -/
def emailBadPriceW : EmailClassification :=
  ⟨true, "new_order".toList, "c1@x.com".toList, none, none,
    some "abc".toList, none, none, none⟩

/-!  ### Segment decompositions of the two templates

Each template is the concatenation of brace-free text segments and
placeholder tokens; this is the combinatorial fact behind the
no-unresolved-placeholder property. -/

def pA : List Char :=
  "Thank you so much for placing an order\nYour total is ".toList

def pB : List Char := " - ".toList

def pC : List Char := "% = ".toList

def pD : List Char :=
  (" FREE shipping\n\n!!! Zelle ( In memo or comments don\x27t put anything please ! ) use email below\n\n").toList

def pE : List Char :=
  ("\n\nIf paid today, We will ship your order Tonight from USA\nYour order will be delivered in 2-4 days max.\nThank you!").toList

def prepaySegs : List (List Char) :=
  [pA, tokPRICE, pB, tokDISCOUNT, pC, tokFINAL, pD, tokZELLE, pE]

def qA : List Char :=
  "Hello!\nThank you very much for placing an order\nWe will ship your package ASAP\nTotal is ".toList

def qD : List Char :=
  (" FREE shipping applied\nPay when received as always via Zelle or Cash App\nZELLE IS OUR PREFERRED METHOD OF PAYMENT\nWhen order is received and you are ready to pay ( In memo or comments don\x27t put anything please ! )\n\nHere is your confirmation.\nTracking With USPS will be updated on the USPS website till midnight on the day of the shipping\n").toList

def qE : List Char := "\n\n".toList

def qF : List Char := "\n".toList

def postpaySegs : List (List Char) :=
  [qA, tokPRICE, pB, tokDISCOUNT, pC, tokFINAL, qD, tokTRACK, qE, tokNAME,
   qF, tokSTREET, qF, tokCSZ]

/-- No match of `pat` can begin at any position inside `xs` when scanning
`xs ++ ys`. -/
def NoStart (pat xs ys : List Char) : Prop :=
  ∀ v, v ≠ [] → v <:+ xs → pat.isPrefixOf (v ++ ys) = false

/-- The two lists disagree at some position below both lengths. -/
def hasMismatch (pat tok : List Char) : Bool :=
  (List.zip pat tok).any (fun pr => !(pr.1 == pr.2))

/-- Concatenate a list of segments. -/
def catSegs (l : List (List Char)) : List Char :=
  l.foldr (fun a b => a ++ b) []

/-- A segment is either brace-free text or one of the placeholder tokens. -/
def GoodSeg (s : List Char) : Prop := ob ∉ s ∨ s ∈ Tokens

instance (s : List Char) : Decidable (GoodSeg s) :=
  inferInstanceAs (Decidable (ob ∉ s ∨ s ∈ Tokens))

/-- One placeholder substitution on one segment. -/
def subst1 (tok rep s : List Char) : List Char := if s = tok then rep else s

/-- The effect of all eight substitutions (inner to outer, source order) on
one segment. -/
def substAll (price ds fp z nm st cz s : List Char) : List Char :=
  subst1 tokTRACK "[tracking URL pending]".toList
    (subst1 tokCSZ cz
      (subst1 tokSTREET st
        (subst1 tokNAME nm
          (subst1 tokZELLE z
            (subst1 tokFINAL fp
              (subst1 tokDISCOUNT ds
                (subst1 tokPRICE price s)))))))

/-!  ## Lemmas about `replaceAll` -/

theorem replaceAllAux_nil (pat rep : List Char) (f : Nat) :
    replaceAllAux pat rep f [] = [] := by
  cases f <;> rfl

theorem replaceAllAux_zero (pat rep : List Char) (s : List Char) :
    replaceAllAux pat rep 0 s = s := by
  cases s <;> rfl

theorem replaceAllAux_cons (pat rep : List Char) (f : Nat) (c : Char)
    (rest : List Char) :
    replaceAllAux pat rep (f + 1) (c :: rest) =
      if pat.isPrefixOf (c :: rest) && !pat.isEmpty then
        rep ++ replaceAllAux pat rep f (rest.drop (pat.length - 1))
      else
        c :: replaceAllAux pat rep f rest := rfl

theorem replaceAll_nil (pat rep : List Char) : replaceAll pat rep [] = [] := rfl

theorem replaceAllAux_congr (pat rep : List Char) :
    ∀ (f1 f2 : Nat) (s : List Char), s.length ≤ f1 → s.length ≤ f2 →
      replaceAllAux pat rep f1 s = replaceAllAux pat rep f2 s := by
  intro f1
  induction f1 with
  | zero =>
    intro f2 s h1 _
    have hs : s = [] := List.length_eq_zero.mp (Nat.le_zero.mp h1)
    subst hs
    rw [replaceAllAux_nil, replaceAllAux_nil]
  | succ k ih =>
    intro f2 s h1 h2
    cases s with
    | nil => rw [replaceAllAux_nil, replaceAllAux_nil]
    | cons c rest =>
      cases f2 with
      | zero => simp at h2
      | succ m =>
        rw [replaceAllAux_cons, replaceAllAux_cons]
        have hlen : rest.length ≤ k := by simpa using h1
        have hlen2 : rest.length ≤ m := by simpa using h2
        by_cases hc : (pat.isPrefixOf (c :: rest) && !pat.isEmpty) = true
        · rw [if_pos hc, if_pos hc]
          have hd : (rest.drop (pat.length - 1)).length ≤ rest.length := by
            rw [List.length_drop]; omega
          rw [ih m (rest.drop (pat.length - 1)) (Nat.le_trans hd hlen)
            (Nat.le_trans hd hlen2)]
        · rw [if_neg hc, if_neg hc, ih m rest hlen hlen2]

theorem mem_replaceAllAux (pat rep : List Char) :
    ∀ (f : Nat) (s : List Char) (c : Char),
      c ∈ replaceAllAux pat rep f s → c ∈ s ∨ c ∈ rep := by
  intro f
  induction f with
  | zero =>
    intro s c hc
    rw [replaceAllAux_zero] at hc
    exact Or.inl hc
  | succ k ih =>
    intro s c hc
    cases s with
    | nil => rw [replaceAllAux_nil] at hc; cases hc
    | cons a rest =>
      rw [replaceAllAux_cons] at hc
      by_cases hcond : (pat.isPrefixOf (a :: rest) && !pat.isEmpty) = true
      · rw [if_pos hcond] at hc
        rcases List.mem_append.mp hc with h | h
        · exact Or.inr h
        · rcases ih _ c h with h2 | h2
          · exact Or.inl (List.mem_cons_of_mem a (List.drop_subset _ rest h2))
          · exact Or.inr h2
      · rw [if_neg hcond] at hc
        rcases List.mem_cons.mp hc with h | h
        · exact Or.inl (h ▸ List.mem_cons_self a rest)
        · rcases ih rest c h with h2 | h2
          · exact Or.inl (List.mem_cons_of_mem a h2)
          · exact Or.inr h2

theorem mem_replaceAll (pat rep s : List Char) (c : Char)
    (h : c ∈ replaceAll pat rep s) : c ∈ s ∨ c ∈ rep :=
  mem_replaceAllAux pat rep s.length s c h

theorem isPrefixOf_append_left : ∀ (l t : List Char), l.isPrefixOf (l ++ t) = true := by
  intro l
  induction l with
  | nil => intro t; simp [List.isPrefixOf]
  | cons a as ih =>
    intro t
    show ((a == a) && as.isPrefixOf (as ++ t)) = true
    simp [ih]

theorem replaceAll_append_of_noStart (pat rep : List Char) :
    ∀ (xs : List Char) {ys : List Char}, NoStart pat xs ys →
      replaceAll pat rep (xs ++ ys) = xs ++ replaceAll pat rep ys := by
  intro xs
  induction xs with
  | nil => intro ys _; simp
  | cons c xs' ih =>
    intro ys hns
    have hpre : pat.isPrefixOf (c :: (xs' ++ ys)) = false := by
      have h := hns (c :: xs') (List.cons_ne_nil c xs') (List.suffix_refl _)
      simpa using h
    have hrec : NoStart pat xs' ys := fun v hv hsuf =>
      hns v hv (hsuf.trans (List.suffix_cons c xs'))
    show replaceAllAux pat rep ((xs' ++ ys).length + 1) (c :: (xs' ++ ys)) =
      c :: (xs' ++ replaceAll pat rep ys)
    rw [replaceAllAux_cons, hpre]
    simp only [Bool.false_and, Bool.false_eq_true, if_false]
    exact congrArg (c :: ·) (ih hrec)

theorem replaceAll_append_self (pat rep ys : List Char) (hpat : pat ≠ []) :
    replaceAll pat rep (pat ++ ys) = rep ++ replaceAll pat rep ys := by
  obtain ⟨p0, pt, rfl⟩ : ∃ p0 pt, pat = p0 :: pt := by
    cases pat with
    | nil => exact absurd rfl hpat
    | cons a l => exact ⟨a, l, rfl⟩
  have hpre : (p0 :: pt).isPrefixOf (p0 :: (pt ++ ys)) = true := by
    show ((p0 == p0) && pt.isPrefixOf (pt ++ ys)) = true
    simp [isPrefixOf_append_left]
  show replaceAllAux (p0 :: pt) rep ((pt ++ ys).length + 1) (p0 :: (pt ++ ys)) =
    rep ++ replaceAll (p0 :: pt) rep ys
  rw [replaceAllAux_cons, hpre]
  simp only [List.isEmpty_cons, Bool.not_false, Bool.and_true, Bool.true_and,
    if_pos rfl]
  have hd : (pt ++ ys).drop ((p0 :: pt).length - 1) = ys := by
    simp [List.drop_left]
  rw [hd, replaceAllAux_congr (p0 :: pt) rep (pt ++ ys).length ys.length ys
    (by simp) (Nat.le_refl _)]
  rw [if_pos trivial]
  rfl

theorem replaceAll_id_of_noStart (pat rep xs : List Char)
    (h : NoStart pat xs []) : replaceAll pat rep xs = xs := by
  have := replaceAll_append_of_noStart pat rep xs h
  simpa [replaceAll_nil] using this

theorem isPrefixOf_eq_false_of_mismatch :
    ∀ (pat tok : List Char), hasMismatch pat tok = true →
      ∀ ys, pat.isPrefixOf (tok ++ ys) = false := by
  intro pat
  induction pat with
  | nil => intro tok h; simp [hasMismatch] at h
  | cons p ps ih =>
    intro tok h ys
    cases tok with
    | nil => simp [hasMismatch] at h
    | cons t ts =>
      by_cases hpt : p = t
      · subst hpt
        have h2 : hasMismatch ps ts = true := by
          simpa [hasMismatch] using h
        rw [List.cons_append]
        show ((p == p) && ps.isPrefixOf (ts ++ ys)) = false
        rw [ih ts h2 ys]
        simp
      · rw [List.cons_append]
        show ((p == t) && ps.isPrefixOf (ts ++ ys)) = false
        rw [beq_eq_false_iff_ne.mpr hpt]
        simp

theorem noStart_of_free (pat xs ys : List Char)
    (hh : pat.head? = some ob) (hfree : ob ∉ xs) : NoStart pat xs ys := by
  intro v hv hs
  obtain ⟨c, v', rfl⟩ : ∃ c v', v = c :: v' := by
    cases v with
    | nil => exact absurd rfl hv
    | cons a l => exact ⟨a, l, rfl⟩
  have hc : c ∈ xs := by
    obtain ⟨t, ht⟩ := hs
    rw [← ht]
    exact List.mem_append_right t (List.mem_cons_self c v')
  have hcne : c ≠ ob := fun he => hfree (he ▸ hc)
  obtain ⟨p0, pt, rfl⟩ : ∃ p0 pt, pat = p0 :: pt := by
    cases pat with
    | nil => simp at hh
    | cons a l => exact ⟨a, l, rfl⟩
  have hp0 : p0 = ob := by simpa using hh
  subst hp0
  rw [List.cons_append]
  show ((ob == c) && pt.isPrefixOf (v' ++ ys)) = false
  rw [beq_eq_false_iff_ne.mpr (Ne.symm hcne)]
  simp

theorem noStart_append (pat xs2 ys : List Char) :
    ∀ xs1, NoStart pat xs1 (xs2 ++ ys) → NoStart pat xs2 ys →
      NoStart pat (xs1 ++ xs2) ys := by
  intro xs1
  induction xs1 with
  | nil => intro _ h2; simpa using h2
  | cons c cs ih =>
    intro h1 h2 v hv hs
    rw [List.cons_append] at hs
    rcases List.suffix_cons_iff.mp hs with he | hsuf
    · subst he
      have h := h1 (c :: cs) (List.cons_ne_nil c cs) (List.suffix_refl _)
      simp only [List.cons_append, List.append_assoc] at h ⊢
      exact h
    · exact ih (fun w hw hwsuf => h1 w hw (hwsuf.trans (List.suffix_cons c cs)))
        h2 v hv hsuf

theorem noStart_token (pat tl ys : List Char)
    (hh : pat.head? = some ob) (htl : ob ∉ tl)
    (hm : hasMismatch pat (ob :: tl) = true) : NoStart pat (ob :: tl) ys := by
  intro v hv hs
  rcases List.suffix_cons_iff.mp hs with he | hsuf
  · subst he
    exact isPrefixOf_eq_false_of_mismatch pat (ob :: tl) hm ys
  · exact noStart_of_free pat tl ys hh htl v hv hsuf

/-!  ## Segment decomposition of template filling -/

theorem tokens_ne_nil : ∀ t ∈ Tokens, t ≠ [] := by decide

theorem tokens_head : ∀ t ∈ Tokens, t.head? = some ob := by decide

theorem tokens_tail_free : ∀ t ∈ Tokens, ob ∉ t.tail := by decide

theorem tokens_ob_mem : ∀ t ∈ Tokens, ob ∈ t := by decide

theorem tokens_mismatch :
    ∀ t1 ∈ Tokens, ∀ t2 ∈ Tokens, t1 ≠ t2 → hasMismatch t1 t2 = true := by decide

theorem braceFree_ne_token {s t : List Char} (h : ob ∉ s) (ht : t ∈ Tokens) :
    s ≠ t := fun he => h (he ▸ tokens_ob_mem t ht)

theorem noStart_of_goodSeg {tok s : List Char} (ys : List Char)
    (htok : tok ∈ Tokens) (hne : s ≠ tok) (hgood : GoodSeg s) :
    NoStart tok s ys := by
  cases hgood with
  | inl hfree => exact noStart_of_free tok s ys (tokens_head tok htok) hfree
  | inr hmem =>
    obtain ⟨a, tl, rfl⟩ : ∃ a tl, s = a :: tl := by
      cases s with
      | nil => exact absurd rfl (tokens_ne_nil [] hmem)
      | cons a l => exact ⟨a, l, rfl⟩
    have ha : a = ob := by simpa using tokens_head _ hmem
    subst ha
    exact noStart_token tok tl ys (tokens_head tok htok)
      (by simpa using tokens_tail_free _ hmem)
      (tokens_mismatch tok htok _ hmem (Ne.symm hne))

/-- Replacing one placeholder token in a concatenation of good segments
substitutes exactly the segments equal to that token. -/
theorem replaceAll_catSegs {tok : List Char} (htok : tok ∈ Tokens)
    (rep : List Char) :
    ∀ segs : List (List Char), (∀ s ∈ segs, GoodSeg s) →
      replaceAll tok rep (catSegs segs) =
        catSegs (segs.map (subst1 tok rep)) := by
  intro segs
  induction segs with
  | nil => intro _; rfl
  | cons s rest ih =>
    intro hgood
    have hs : GoodSeg s := hgood s (List.mem_cons_self s rest)
    have hrest : ∀ x ∈ rest, GoodSeg x := fun x hx =>
      hgood x (List.mem_cons_of_mem s hx)
    have hL : catSegs (s :: rest) = s ++ catSegs rest := rfl
    by_cases he : s = tok
    · rw [hL, he, replaceAll_append_self tok rep (catSegs rest)
        (tokens_ne_nil tok htok), ih hrest]
      simp only [List.map_cons, subst1, if_pos he]
      rfl
    · rw [hL, replaceAll_append_of_noStart tok rep s
        (noStart_of_goodSeg (catSegs rest) htok he hs), ih hrest]
      simp only [List.map_cons, subst1, if_neg he]
      rfl

theorem subst1_tok (tok rep : List Char) : subst1 tok rep tok = rep :=
  if_pos rfl

theorem subst1_tok_ne (t1 t2 rep : List Char) (h : ¬ t1 = t2) :
    subst1 t2 rep t1 = t1 := if_neg h

theorem subst1_free (s : List Char) {tok rep : List Char} (hs : ob ∉ s)
    (htok : tok ∈ Tokens) : subst1 tok rep s = s :=
  if_neg (braceFree_ne_token hs htok)

theorem goodSeg_map_subst1 {rep : List Char} (hrep : ob ∉ rep)
    {segs : List (List Char)} (h : ∀ s ∈ segs, GoodSeg s) (tok : List Char) :
    ∀ s ∈ segs.map (subst1 tok rep), GoodSeg s := by
  intro s hs
  rcases List.mem_map.mp hs with ⟨s0, hs0, rfl⟩
  by_cases he : s0 = tok
  · rw [subst1, if_pos he]; exact Or.inl hrep
  · rw [subst1, if_neg he]; exact h s0 hs0

/-- The whole `fillTemplate` chain over a good segment decomposition. -/
theorem fillTemplate_segs (price ds fp z nm st cz : List Char)
    (hpr : ob ∉ price) (hds : ob ∉ ds) (hfp : ob ∉ fp) (hz : ob ∉ z)
    (hnm : ob ∉ nm) (hst : ob ∉ st) (hcz : ob ∉ cz)
    (segs : List (List Char)) (hgood : ∀ s ∈ segs, GoodSeg s) :
    fillTemplate (catSegs segs) price ds fp z nm st cz =
      catSegs (segs.map (substAll price ds fp z nm st cz)) := by
  have htr : ob ∉ "[tracking URL pending]".toList := by decide
  have g1 := goodSeg_map_subst1 hpr hgood tokPRICE
  have g2 := goodSeg_map_subst1 hds g1 tokDISCOUNT
  have g3 := goodSeg_map_subst1 hfp g2 tokFINAL
  have g4 := goodSeg_map_subst1 hz g3 tokZELLE
  have g5 := goodSeg_map_subst1 hnm g4 tokNAME
  have g6 := goodSeg_map_subst1 hst g5 tokSTREET
  have g7 := goodSeg_map_subst1 hcz g6 tokCSZ
  unfold fillTemplate
  rw [replaceAll_catSegs (show tokPRICE ∈ Tokens by decide) price segs hgood,
    replaceAll_catSegs (show tokDISCOUNT ∈ Tokens by decide) ds _ g1,
    replaceAll_catSegs (show tokFINAL ∈ Tokens by decide) fp _ g2,
    replaceAll_catSegs (show tokZELLE ∈ Tokens by decide) z _ g3,
    replaceAll_catSegs (show tokNAME ∈ Tokens by decide) nm _ g4,
    replaceAll_catSegs (show tokSTREET ∈ Tokens by decide) st _ g5,
    replaceAll_catSegs (show tokCSZ ∈ Tokens by decide) cz _ g6,
    replaceAll_catSegs (show tokTRACK ∈ Tokens by decide)
      "[tracking URL pending]".toList _ g7]
  simp only [List.map_map]
  rfl

section SubstAllEval

variable {price ds fp z nm st cz : List Char}

theorem substAll_free (s : List Char) (hs : ob ∉ s) :
    substAll price ds fp z nm st cz s = s := by
  unfold substAll
  rw [subst1_free s hs (show tokPRICE ∈ Tokens by decide),
    subst1_free s hs (show tokDISCOUNT ∈ Tokens by decide),
    subst1_free s hs (show tokFINAL ∈ Tokens by decide),
    subst1_free s hs (show tokZELLE ∈ Tokens by decide),
    subst1_free s hs (show tokNAME ∈ Tokens by decide),
    subst1_free s hs (show tokSTREET ∈ Tokens by decide),
    subst1_free s hs (show tokCSZ ∈ Tokens by decide),
    subst1_free s hs (show tokTRACK ∈ Tokens by decide)]

theorem substAll_tokPRICE (hpr : ob ∉ price) :
    substAll price ds fp z nm st cz tokPRICE = price := by
  unfold substAll
  rw [subst1_tok,
    subst1_free price hpr (show tokDISCOUNT ∈ Tokens by decide),
    subst1_free price hpr (show tokFINAL ∈ Tokens by decide),
    subst1_free price hpr (show tokZELLE ∈ Tokens by decide),
    subst1_free price hpr (show tokNAME ∈ Tokens by decide),
    subst1_free price hpr (show tokSTREET ∈ Tokens by decide),
    subst1_free price hpr (show tokCSZ ∈ Tokens by decide),
    subst1_free price hpr (show tokTRACK ∈ Tokens by decide)]

theorem substAll_tokDISCOUNT (hds : ob ∉ ds) :
    substAll price ds fp z nm st cz tokDISCOUNT = ds := by
  unfold substAll
  rw [subst1_tok_ne tokDISCOUNT tokPRICE price (by decide), subst1_tok,
    subst1_free ds hds (show tokFINAL ∈ Tokens by decide),
    subst1_free ds hds (show tokZELLE ∈ Tokens by decide),
    subst1_free ds hds (show tokNAME ∈ Tokens by decide),
    subst1_free ds hds (show tokSTREET ∈ Tokens by decide),
    subst1_free ds hds (show tokCSZ ∈ Tokens by decide),
    subst1_free ds hds (show tokTRACK ∈ Tokens by decide)]

theorem substAll_tokFINAL (hfp : ob ∉ fp) :
    substAll price ds fp z nm st cz tokFINAL = fp := by
  unfold substAll
  rw [subst1_tok_ne tokFINAL tokPRICE price (by decide),
    subst1_tok_ne tokFINAL tokDISCOUNT ds (by decide), subst1_tok,
    subst1_free fp hfp (show tokZELLE ∈ Tokens by decide),
    subst1_free fp hfp (show tokNAME ∈ Tokens by decide),
    subst1_free fp hfp (show tokSTREET ∈ Tokens by decide),
    subst1_free fp hfp (show tokCSZ ∈ Tokens by decide),
    subst1_free fp hfp (show tokTRACK ∈ Tokens by decide)]

theorem substAll_tokZELLE (hz : ob ∉ z) :
    substAll price ds fp z nm st cz tokZELLE = z := by
  unfold substAll
  rw [subst1_tok_ne tokZELLE tokPRICE price (by decide),
    subst1_tok_ne tokZELLE tokDISCOUNT ds (by decide),
    subst1_tok_ne tokZELLE tokFINAL fp (by decide), subst1_tok,
    subst1_free z hz (show tokNAME ∈ Tokens by decide),
    subst1_free z hz (show tokSTREET ∈ Tokens by decide),
    subst1_free z hz (show tokCSZ ∈ Tokens by decide),
    subst1_free z hz (show tokTRACK ∈ Tokens by decide)]

theorem substAll_tokNAME (hnm : ob ∉ nm) :
    substAll price ds fp z nm st cz tokNAME = nm := by
  unfold substAll
  rw [subst1_tok_ne tokNAME tokPRICE price (by decide),
    subst1_tok_ne tokNAME tokDISCOUNT ds (by decide),
    subst1_tok_ne tokNAME tokFINAL fp (by decide),
    subst1_tok_ne tokNAME tokZELLE z (by decide), subst1_tok,
    subst1_free nm hnm (show tokSTREET ∈ Tokens by decide),
    subst1_free nm hnm (show tokCSZ ∈ Tokens by decide),
    subst1_free nm hnm (show tokTRACK ∈ Tokens by decide)]

theorem substAll_tokSTREET (hst : ob ∉ st) :
    substAll price ds fp z nm st cz tokSTREET = st := by
  unfold substAll
  rw [subst1_tok_ne tokSTREET tokPRICE price (by decide),
    subst1_tok_ne tokSTREET tokDISCOUNT ds (by decide),
    subst1_tok_ne tokSTREET tokFINAL fp (by decide),
    subst1_tok_ne tokSTREET tokZELLE z (by decide),
    subst1_tok_ne tokSTREET tokNAME nm (by decide), subst1_tok,
    subst1_free st hst (show tokCSZ ∈ Tokens by decide),
    subst1_free st hst (show tokTRACK ∈ Tokens by decide)]

theorem substAll_tokCSZ (hcz : ob ∉ cz) :
    substAll price ds fp z nm st cz tokCSZ = cz := by
  unfold substAll
  rw [subst1_tok_ne tokCSZ tokPRICE price (by decide),
    subst1_tok_ne tokCSZ tokDISCOUNT ds (by decide),
    subst1_tok_ne tokCSZ tokFINAL fp (by decide),
    subst1_tok_ne tokCSZ tokZELLE z (by decide),
    subst1_tok_ne tokCSZ tokNAME nm (by decide),
    subst1_tok_ne tokCSZ tokSTREET st (by decide), subst1_tok,
    subst1_free cz hcz (show tokTRACK ∈ Tokens by decide)]

theorem substAll_tokTRACK :
    substAll price ds fp z nm st cz tokTRACK = "[tracking URL pending]".toList := by
  unfold substAll
  rw [subst1_tok_ne tokTRACK tokPRICE price (by decide),
    subst1_tok_ne tokTRACK tokDISCOUNT ds (by decide),
    subst1_tok_ne tokTRACK tokFINAL fp (by decide),
    subst1_tok_ne tokTRACK tokZELLE z (by decide),
    subst1_tok_ne tokTRACK tokNAME nm (by decide),
    subst1_tok_ne tokTRACK tokSTREET st (by decide),
    subst1_tok_ne tokTRACK tokCSZ cz (by decide), subst1_tok]

end SubstAllEval

set_option maxRecDepth 4000 in
theorem tmplPrepay_segs : tmplNewOrderPrepay = catSegs prepaySegs := by decide

set_option maxRecDepth 8000 in
theorem tmplPostpay_segs : tmplNewOrderPostpay = catSegs postpaySegs := by decide

set_option maxRecDepth 4000 in
theorem prepaySegs_good : ∀ s ∈ prepaySegs, GoodSeg s := by decide

set_option maxRecDepth 8000 in
theorem postpaySegs_good : ∀ s ∈ postpaySegs, GoodSeg s := by decide

/-- Filling the prepay template is literal interleaving of its text with
the substituted values. -/
theorem fill_prepay (price ds fp z nm st cz : List Char)
    (hpr : ob ∉ price) (hds : ob ∉ ds) (hfp : ob ∉ fp) (hz : ob ∉ z)
    (hnm : ob ∉ nm) (hst : ob ∉ st) (hcz : ob ∉ cz) :
    fillTemplate tmplNewOrderPrepay price ds fp z nm st cz =
      catSegs [pA, price, pB, ds, pC, fp, pD, z, pE] := by
  rw [tmplPrepay_segs,
    fillTemplate_segs price ds fp z nm st cz hpr hds hfp hz hnm hst hcz
      prepaySegs prepaySegs_good]
  show catSegs (prepaySegs.map (substAll price ds fp z nm st cz)) = _
  simp only [prepaySegs, List.map_cons, List.map_nil]
  rw [substAll_free pA (by decide), substAll_tokPRICE hpr,
    substAll_free pB (by decide), substAll_tokDISCOUNT hds,
    substAll_free pC (by decide), substAll_tokFINAL hfp,
    substAll_free pD (by decide), substAll_tokZELLE hz,
    substAll_free pE (by decide)]

/-- Filling the postpay template is literal interleaving of its text with
the substituted values. -/
theorem fill_postpay (price ds fp z nm st cz : List Char)
    (hpr : ob ∉ price) (hds : ob ∉ ds) (hfp : ob ∉ fp) (hz : ob ∉ z)
    (hnm : ob ∉ nm) (hst : ob ∉ st) (hcz : ob ∉ cz) :
    fillTemplate tmplNewOrderPostpay price ds fp z nm st cz =
      catSegs [qA, price, pB, ds, pC, fp, qD, "[tracking URL pending]".toList,
        qE, nm, qF, st, qF, cz] := by
  rw [tmplPostpay_segs,
    fillTemplate_segs price ds fp z nm st cz hpr hds hfp hz hnm hst hcz
      postpaySegs postpaySegs_good]
  show catSegs (postpaySegs.map (substAll price ds fp z nm st cz)) = _
  simp only [postpaySegs, List.map_cons, List.map_nil]
  rw [substAll_free qA (by decide), substAll_tokPRICE hpr,
    substAll_free pB (by decide), substAll_tokDISCOUNT hds,
    substAll_free pC (by decide), substAll_tokFINAL hfp,
    substAll_free qD (by decide), substAll_tokTRACK,
    substAll_free qE (by decide), substAll_tokNAME hnm,
    substAll_free qF (by decide), substAll_tokSTREET hst,
    substAll_tokCSZ hcz]

/-!  ## Brace-freeness of rendered numbers -/

theorem digitChar_ne_ob (n : Nat) : digitChar n ≠ ob := by
  unfold digitChar
  split <;> decide

theorem ob_not_mem_natToCharsAux : ∀ (f n : Nat), ob ∉ natToCharsAux f n := by
  intro f
  induction f with
  | zero => intro n; simp [natToCharsAux]
  | succ k ih =>
    intro n
    cases n with
    | zero => simp [natToCharsAux]
    | succ m =>
      show ob ∉ natToCharsAux k ((m + 1) / 10) ++ [digitChar ((m + 1) % 10)]
      intro hmem
      rcases List.mem_append.mp hmem with h | h
      · exact ih _ h
      · exact digitChar_ne_ob _ (List.mem_singleton.mp h).symm

theorem ob_not_mem_natToChars (n : Nat) : ob ∉ natToChars n := by
  unfold natToChars
  split
  · decide
  · exact ob_not_mem_natToCharsAux n n

theorem ob_not_mem_intToChars (d : Int) : ob ∉ intToChars d := by
  unfold intToChars
  split
  · intro h
    rcases List.mem_cons.mp h with h | h
    · exact absurd h.symm (by decide)
    · exact ob_not_mem_natToChars _ h
  · exact ob_not_mem_natToChars _

theorem ob_not_mem_twoPad (n : Nat) : ob ∉ twoPad n := by
  unfold twoPad
  split
  · intro h
    rcases List.mem_cons.mp h with h | h
    · exact absurd h.symm (by decide)
    · exact ob_not_mem_natToChars _ h
  · exact ob_not_mem_natToChars _

theorem ob_not_mem_formatF2 (q : ℚ) : ob ∉ formatF2 q := by
  unfold formatF2
  intro h
  rcases List.mem_append.mp h with h | h
  · rcases List.mem_append.mp h with h | h
    · revert h
      split
      · intro h; exact absurd (List.mem_singleton.mp h).symm (by decide)
      · intro h; simp at h
    · exact ob_not_mem_natToChars _ h
  · rcases List.mem_cons.mp h with h | h
    · exact absurd h.symm (by decide)
    · exact ob_not_mem_twoPad _ h

theorem ob_not_mem_finalPriceVal (d : Int) (pn : ℚ) : ob ∉ finalPriceVal d pn := by
  intro h
  rcases List.mem_cons.mp h with h | h
  · exact absurd h.symm (by decide)
  · exact ob_not_mem_formatF2 _ h

theorem twoPad_length : ∀ m < 100, (twoPad m).length = 2 := by decide

theorem ob_not_mem_catSegs (segs : List (List Char))
    (h : ∀ s ∈ segs, ob ∉ s) : ob ∉ catSegs segs := by
  induction segs with
  | nil => simp [catSegs]
  | cons s rest ih =>
    show ob ∉ s ++ catSegs rest
    intro hmem
    rcases List.mem_append.mp hmem with hm | hm
    · exact h s (List.mem_cons_self s rest) hm
    · exact ih (fun x hx => h x (List.mem_cons_of_mem s hx)) hm

theorem ob_not_mem_replaceAll (pat rep s : List Char) (hs : ob ∉ s)
    (hr : ob ∉ rep) : ob ∉ replaceAll pat rep s := fun h =>
  (mem_replaceAll pat rep s ob h).elim hs hr

theorem ob_not_mem_nameFallback (o : Option (List Char)) (stored : List Char)
    (ho : ob ∉ o.getD []) (hstored : ob ∉ stored) :
    ob ∉ nameFallback o stored := by
  cases o with
  | none => exact hstored
  | some n =>
    show ob ∉ if n = [] then stored else n
    by_cases hn : n = []
    · rw [if_pos hn]; exact hstored
    · rw [if_neg hn]; exact ho

theorem not_infix_of_ob_free {tok d : List Char} (htok : tok ∈ Tokens)
    (hd : ob ∉ d) : ¬ List.IsInfix tok d := by
  intro hinf
  obtain ⟨s, t, ht⟩ := hinf
  exact hd (ht ▸ List.mem_append_left t
    (List.mem_append_right s (tokens_ob_mem tok htok)))

/-!  ## Reduction of `process_classified_email` in the template branch -/

theorem process_eq (db : List Client) (c : EmailClassification) (cl : Client)
    (t : List Char)
    (hnr : c.needs_reply = true)
    (hcl : get_client db c.client_email = some cl)
    (ht : REPLY_TEMPLATES c.situation cl.payment_type = some t) :
    process_classified_email db c =
      ({ needs_reply := c.needs_reply
         situation := c.situation
         client_email := c.client_email
         client_name := c.client_name
         client_found := true
         client_data := some cl
         template_used := true
         draft_reply := some (procReply t c cl)
         needs_ai_fallback := false },
       if applyDiscountB cl.discount_percent cl.discount_orders_left
            (priceNum (c.price.getD []))
       then decrement_discount db c.client_email else db) := by
  simp only [process_classified_email, hnr, hcl, ht, Bool.true_eq_false,
    if_false, procReply]

theorem applyDiscountB_iff (d l : Int) (pn : ℚ) :
    applyDiscountB d l pn = true ↔ (0 < d ∧ 0 < l ∧ 0 < pn) := by
  simp [applyDiscountB, and_assoc]

theorem applyDiscountB_left_zero (d : Int) (pn : ℚ) :
    applyDiscountB d 0 pn = false := by
  simp [applyDiscountB]

theorem applyDiscountB_price_zero (d l : Int) :
    applyDiscountB d l 0 = false := by
  simp [applyDiscountB]

theorem decClient_email (c : Client) : (decClient c).email = c.email := by
  unfold decClient
  split <;> rfl

theorem get_client_decrement (db : List Client) (e : List Char) :
    get_client (decrement_discount db e) e = (get_client db e).map decClient := by
  unfold get_client decrement_discount
  induction db with
  | nil => rfl
  | cons c rest ih =>
    by_cases hp : (c.email == lowerStrip e) = true
    · rw [updateFirst, if_pos hp]
      simp only [List.find?, decClient_email, hp]
      rfl
    · have hpf : (c.email == lowerStrip e) = false := by
        simpa using hp
      rw [updateFirst, if_neg hp]
      simp only [List.find?, decClient_email, hpf]
      exact ih

/-!  ## Lemmas about the poll cycle and the history store -/

theorem already_save_email (S : List EmailRec) (r : EmailRec) (g : List Char)
    (hne : r.gmail_message_id ≠ some g) :
    email_already_processed (save_email S r) g = email_already_processed S g := by
  unfold save_email
  cases hr : r.gmail_message_id with
  | none =>
    show email_already_processed (S ++ [r]) g = email_already_processed S g
    simp [email_already_processed, List.any_append, hr]
  | some g' =>
    show email_already_processed
      (if email_already_processed S g' = true then S else S ++ [r]) g =
      email_already_processed S g
    by_cases hS : email_already_processed S g' = true
    · rw [if_pos hS]
    · rw [if_neg hS]
      have hgg : (some g' == some g) = false := by
        have hne2 : g' ≠ g := fun he => hne (by rw [hr, he])
        simpa using hne2
      simp [email_already_processed, List.any_append, hr, hgg]

theorem already_append_self (S : List EmailRec) (r : EmailRec) (g : List Char)
    (hg : r.gmail_message_id = some g) :
    email_already_processed (S ++ [r]) g = true := by
  simp [email_already_processed, List.any_append, hg]

theorem countGid_zero_of_fresh (S : List EmailRec) (g : List Char)
    (h : email_already_processed S g = false) : countGid S g = 0 := by
  unfold countGid
  rw [List.length_eq_zero, List.filter_eq_nil_iff]
  exact List.any_eq_false.mp h

theorem countGid_append (S : List EmailRec) (r : EmailRec) (g : List Char) :
    countGid (S ++ [r]) g =
      countGid S g + (if r.gmail_message_id == some g then 1 else 0) := by
  unfold countGid
  rw [List.filter_append, List.length_append]
  congr 1
  by_cases hr : (r.gmail_message_id == some g) = true
  · simp [hr]
  · simp [List.filter_cons, hr]

theorem poll_step_latest (pipe : List Char → Option (EmailRec × Option EmailRec))
    (st : PollSt) (m : PollMsg)
    (h : email_already_processed st.store m.msg_id = false) :
    (poll_step pipe st m).latest = m.history_id.getD st.latest := by
  unfold poll_step
  rw [if_neg (by simp [h])]
  cases hp : pipe m.msg_id with
  | none => cases m.history_id <;> rfl
  | some pr => cases pr with
    | mk inb outb => cases outb <;> cases m.history_id <;> rfl

theorem poll_step_store_agree
    (pipe : List Char → Option (EmailRec × Option EmailRec))
    (st : PollSt) (m : PollMsg) (g : List Char) (hne : g ≠ m.msg_id) :
    email_already_processed (poll_step pipe st m).store g =
      email_already_processed st.store g := by
  unfold poll_step
  by_cases hal : email_already_processed st.store m.msg_id = true
  · rw [if_pos hal]
  · rw [if_neg hal]
    cases hp : pipe m.msg_id with
    | none => cases m.history_id <;> rfl
    | some pr =>
      cases pr with
      | mk inb outb =>
        have hinb : email_already_processed
            (save_email st.store { inb with gmail_message_id := some m.msg_id }) g =
            email_already_processed st.store g :=
          already_save_email _ _ _ (by simpa using fun he => hne he.symm)
        cases outb with
        | none => cases m.history_id <;> simpa using hinb
        | some o =>
          have houtb : email_already_processed
              (save_email
                (save_email st.store { inb with gmail_message_id := some m.msg_id })
                { o with gmail_message_id := none }) g =
              email_already_processed st.store g := by
            rw [already_save_email _ _ _ (by simp)]
            exact hinb
          cases m.history_id <;> simpa using houtb

theorem poll_latest_invariant
    (pipe : List Char → Option (EmailRec × Option EmailRec))
    (S0 : List EmailRec) :
    ∀ (msgs : List PollMsg) (st : PollSt),
      (msgs.map (fun m => m.msg_id)).Nodup →
      (∀ m ∈ msgs, email_already_processed st.store m.msg_id =
        email_already_processed S0 m.msg_id) →
      (msgs.foldl (poll_step pipe) st).latest =
        msgs.foldl
          (fun l m => if email_already_processed S0 m.msg_id then l
            else m.history_id.getD l) st.latest := by
  intro msgs
  induction msgs with
  | nil => intro st _ _; rfl
  | cons m rest ih =>
    intro st hnd hagree
    have hm := hagree m (List.mem_cons_self m rest)
    rw [List.map_cons] at hnd
    obtain ⟨hnotin, hndr⟩ := List.nodup_cons.mp hnd
    have hmne : ∀ m' ∈ rest, m'.msg_id ≠ m.msg_id := by
      intro m' hm' he
      exact hnotin (List.mem_map.mpr ⟨m', hm', he⟩)
    show (rest.foldl (poll_step pipe) (poll_step pipe st m)).latest = _
    by_cases hal : email_already_processed st.store m.msg_id = true
    · have hS0 : email_already_processed S0 m.msg_id = true := by rw [← hm]; exact hal
      have hskip : poll_step pipe st m = st := by
        unfold poll_step; rw [if_pos hal]
      rw [hskip, List.foldl_cons, if_pos hS0]
      exact ih st hndr (fun m' hm' => hagree m' (List.mem_cons_of_mem m hm'))
    · have half : email_already_processed st.store m.msg_id = false := by
        simpa using hal
      have hS0 : email_already_processed S0 m.msg_id = false := by
        rw [← hm]; exact half
      rw [List.foldl_cons, if_neg (by simp [hS0]),
        ← poll_step_latest pipe st m half]
      exact ih (poll_step pipe st m) hndr (fun m' hm' => by
        rw [poll_step_store_agree pipe st m m'.msg_id (hmne m' hm')]
        exact hagree m' (List.mem_cons_of_mem m hm'))

theorem getLast?_getD_cons (L : List Nat) :
    ∀ (h d : Nat), (((h :: L).getLast?).getD d) = ((L.getLast?).getD h) := by
  induction L with
  | nil => intro h d; rfl
  | cons x xs ih =>
    intro h d
    rw [List.getLast?_cons_cons, ih x d, ih x h]

theorem foldl_getD_eq_getLast (l : List (Option Nat)) :
    ∀ d : Nat, l.foldl (fun acc o => o.getD acc) d =
      ((l.filterMap id).getLast?).getD d := by
  induction l with
  | nil => intro d; rfl
  | cons o rest ih =>
    intro d
    cases o with
    | none =>
      rw [List.foldl_cons, List.filterMap_cons]
      exact ih d
    | some h =>
      rw [List.foldl_cons, List.filterMap_cons]
      show rest.foldl _ h = (((h :: rest.filterMap id).getLast?).getD d)
      rw [getLast?_getD_cons, ih h]

theorem foldl_skip_eq_foldl_filter (S0 : List EmailRec) :
    ∀ (msgs : List PollMsg) (d : Nat),
      msgs.foldl (fun l m => if email_already_processed S0 m.msg_id then l
        else m.history_id.getD l) d =
      (msgs.filter (fun m => !email_already_processed S0 m.msg_id)).foldl
        (fun l m => m.history_id.getD l) d := by
  intro msgs
  induction msgs with
  | nil => intro d; rfl
  | cons m rest ih =>
    intro d
    rw [List.foldl_cons, List.filter_cons]
    by_cases hal : email_already_processed S0 m.msg_id = true
    · rw [if_pos hal, if_neg (by simp [hal])]
      exact ih d
    · have half : email_already_processed S0 m.msg_id = false := by simpa using hal
      rw [if_neg hal, if_pos (by simp [half]), List.foldl_cons]
      exact ih _

theorem poll_step_skip (pipe : List Char → Option (EmailRec × Option EmailRec))
    (st : PollSt) (m : PollMsg)
    (hal : email_already_processed st.store m.msg_id = true) :
    poll_step pipe st m = st := by
  unfold poll_step
  rw [if_pos hal]

theorem poll_step_store_fresh
    (pipe : List Char → Option (EmailRec × Option EmailRec))
    (st : PollSt) (m : PollMsg)
    (hfresh : email_already_processed st.store m.msg_id = false)
    (inb : EmailRec) (hp : pipe m.msg_id = some (inb, none)) :
    (poll_step pipe st m).store =
      save_email st.store { inb with gmail_message_id := some m.msg_id } := by
  unfold poll_step
  rw [if_neg (by simp [hfresh]), hp]
  cases m.history_id <;> rfl

theorem poll_step_attempted_fresh
    (pipe : List Char → Option (EmailRec × Option EmailRec))
    (st : PollSt) (m : PollMsg)
    (hfresh : email_already_processed st.store m.msg_id = false) :
    (poll_step pipe st m).attempted = st.attempted ++ [m.msg_id] := by
  unfold poll_step
  rw [if_neg (by simp [hfresh])]
  cases hp : pipe m.msg_id with
  | none => cases m.history_id <;> rfl
  | some pr =>
    cases pr with
    | mk inb outb => cases outb <;> cases m.history_id <;> rfl

/-!  ## Claim theorems (C1 to C10) and their witnesses -/

/-- Claim C3 (counterexample): the original claim says the persisted cursor
equals the highest history position among all fetched candidates, including
candidates skipped as already processed.  In this one-candidate cycle the
candidate is already processed, the highest fetched position is 999, yet
the cursor stays at its prior value 1, because the skip branch `continue`s
past the `latest_history_id` update. -/
theorem claim_C3_counterexample :
    (poll_gmail (fun _ => none) 1 [⟨"m1".toList, some 999⟩]
        [{ client_email := [], direction := [], subject := [], body := [],
           situation := [], gmail_message_id := some "m1".toList,
           created_at := 0 }]).latest = 1 ∧
    (([⟨"m1".toList, some 999⟩] : List PollMsg).filterMap
        (fun m => m.history_id)).max? = some 999 ∧
    (1 : Nat) ≠ 999 := by
  refine ⟨?_, rfl, by decide⟩
  rfl

/-- Claim C3 (amended): for every batch with distinct message ids and every
per-message processing outcome, the persisted cursor after the cycle is the
history position of the last fetched candidate that is not skipped by the
dedup check, or the prior cursor when there is none; in particular a
per-message processing failure neither stops the batch nor prevents the
cursor advance (the statement holds for every outcome oracle `pipe`). -/
theorem claim_C3_amended
    (pipe : List Char → Option (EmailRec × Option EmailRec))
    (cursor : Nat) (store : List EmailRec) (msgs : List PollMsg)
    (hnd : (msgs.map (fun m => m.msg_id)).Nodup) :
    (poll_gmail pipe cursor msgs store).latest = lastSeenCursor cursor store msgs := by
  unfold poll_gmail lastSeenCursor
  rw [poll_latest_invariant pipe store msgs _ hnd (fun _ _ => rfl)]
  show msgs.foldl _ cursor = _
  rw [foldl_skip_eq_foldl_filter store msgs cursor]
  set msgsF := msgs.filter (fun m => !email_already_processed store m.msg_id)
  have h1 : msgsF.foldl (fun l m => m.history_id.getD l) cursor =
      (msgsF.map (fun m => m.history_id)).foldl (fun acc o => o.getD acc) cursor := by
    rw [List.foldl_map]
  rw [h1, foldl_getD_eq_getLast]
  have h2 : (msgsF.map (fun m => m.history_id)).filterMap id =
      msgsF.filterMap (fun m => m.history_id) := by
    rw [List.filterMap_map]
    rfl
  rw [h2]

/-- Witness for the amended C3 on the spec scenario: a three-message batch
whose second message fails processing still advances the cursor to the
position of message 3 (the last non-skipped candidate). -/
theorem claim_C3_amended_witness :
    ((([⟨"a".toList, some 5⟩, ⟨"b".toList, some 6⟩, ⟨"c".toList, some 7⟩] :
        List PollMsg).map (fun m => m.msg_id)).Nodup) ∧
    (poll_gmail
        (fun i => if i = "b".toList then none else
          some ({ client_email := [], direction := [], subject := [],
                  body := [], situation := [], gmail_message_id := none,
                  created_at := 0 }, none))
        1
        [⟨"a".toList, some 5⟩, ⟨"b".toList, some 6⟩, ⟨"c".toList, some 7⟩]
        []).latest =
      lastSeenCursor 1 []
        [⟨"a".toList, some 5⟩, ⟨"b".toList, some 6⟩, ⟨"c".toList, some 7⟩] ∧
    lastSeenCursor 1 []
      [⟨"a".toList, some 5⟩, ⟨"b".toList, some 6⟩, ⟨"c".toList, some 7⟩] = 7 :=
  ⟨by decide, claim_C3_amended _ 1 [] _ (by decide), by rfl⟩

/-- Claim C7: processing the same Gmail message id twice stores exactly one
row with that id: the first cycle attempts the message and stores one
inbound row; a second cycle detects it as already processed and skips it
before the processing (and hence the classification) call; and the store's
uniqueness constraint is the final backstop — inserting any further row
with that id leaves the store unchanged. -/
theorem claim_C7 (S : List EmailRec) (m : List Char) (h1 h2 : Option Nat)
    (inb r : EmailRec) (cur1 cur2 : Nat)
    (hfresh : email_already_processed S m = false)
    (hr : r.gmail_message_id = some m) :
    countGid (poll_gmail (fun _ => some (inb, none)) cur1 [⟨m, h1⟩] S).store m = 1 ∧
    (poll_gmail (fun _ => some (inb, none)) cur1 [⟨m, h1⟩] S).attempted = [m] ∧
    (poll_gmail (fun _ => some (inb, none)) cur2 [⟨m, h2⟩]
        (poll_gmail (fun _ => some (inb, none)) cur1 [⟨m, h1⟩] S).store).store =
      (poll_gmail (fun _ => some (inb, none)) cur1 [⟨m, h1⟩] S).store ∧
    (poll_gmail (fun _ => some (inb, none)) cur2 [⟨m, h2⟩]
        (poll_gmail (fun _ => some (inb, none)) cur1 [⟨m, h1⟩] S).store).attempted
      = [] ∧
    save_email (poll_gmail (fun _ => some (inb, none)) cur1 [⟨m, h1⟩] S).store r =
      (poll_gmail (fun _ => some (inb, none)) cur1 [⟨m, h1⟩] S).store := by
  have hsave : save_email S { inb with gmail_message_id := some m } =
      S ++ [{ inb with gmail_message_id := some m }] := by
    show (if email_already_processed S m = true then S else _) = _
    rw [if_neg (by simp [hfresh])]
  have hstore : (poll_gmail (fun _ => some (inb, none)) cur1 [⟨m, h1⟩] S).store =
      S ++ [{ inb with gmail_message_id := some m }] := by
    show (poll_step (fun _ => some (inb, none))
        { store := S, latest := cur1, attempted := [], processed := 0 }
        ⟨m, h1⟩).store = S ++ [{ inb with gmail_message_id := some m }]
    rw [poll_step_store_fresh _ _ _ hfresh inb rfl]
    exact hsave
  have hatt : (poll_gmail (fun _ => some (inb, none)) cur1 [⟨m, h1⟩] S).attempted
      = [m] := by
    show (poll_step (fun _ => some (inb, none))
        { store := S, latest := cur1, attempted := [], processed := 0 }
        ⟨m, h1⟩).attempted = [m]
    rw [poll_step_attempted_fresh _ _ _ hfresh]
    rfl
  have halready : email_already_processed
      (poll_gmail (fun _ => some (inb, none)) cur1 [⟨m, h1⟩] S).store m = true := by
    rw [hstore]
    exact already_append_self S _ m rfl
  have hskip2 : poll_gmail (fun _ => some (inb, none)) cur2 [⟨m, h2⟩]
      (poll_gmail (fun _ => some (inb, none)) cur1 [⟨m, h1⟩] S).store =
      { store := (poll_gmail (fun _ => some (inb, none)) cur1 [⟨m, h1⟩] S).store,
        latest := cur2, attempted := [], processed := 0 } := by
    show poll_step (fun _ => some (inb, none))
        { store := (poll_gmail (fun _ => some (inb, none)) cur1 [⟨m, h1⟩] S).store,
          latest := cur2, attempted := [], processed := 0 }
        ⟨m, h2⟩ =
      { store := (poll_gmail (fun _ => some (inb, none)) cur1 [⟨m, h1⟩] S).store,
        latest := cur2, attempted := [], processed := 0 }
    exact poll_step_skip _ _ _ halready
  refine ⟨?_, hatt, ?_, ?_, ?_⟩
  · rw [hstore, countGid_append, countGid_zero_of_fresh S m hfresh]
    simp
  · rw [hskip2]
  · rw [hskip2]
  · have : save_email (poll_gmail (fun _ => some (inb, none)) cur1
        [⟨m, h1⟩] S).store r =
      if email_already_processed (poll_gmail (fun _ => some (inb, none)) cur1
          [⟨m, h1⟩] S).store m = true
      then (poll_gmail (fun _ => some (inb, none)) cur1 [⟨m, h1⟩] S).store
      else (poll_gmail (fun _ => some (inb, none)) cur1 [⟨m, h1⟩] S).store ++ [r] := by
      unfold save_email
      rw [hr]
    rw [this, if_pos halready]

/-- Witness for C7 at a concrete store and message id. -/
theorem claim_C7_witness :
    email_already_processed [] "x".toList = false ∧
    (⟨[], [], [], [], [], some "x".toList, 0⟩ : EmailRec).gmail_message_id =
      some "x".toList ∧
    (countGid (poll_gmail (fun _ => some (⟨[], [], [], [], [], none, 0⟩, none)) 3
        [⟨"x".toList, some 5⟩] []).store "x".toList = 1 ∧
     (poll_gmail (fun _ => some (⟨[], [], [], [], [], none, 0⟩, none)) 3
        [⟨"x".toList, some 5⟩] []).attempted = ["x".toList] ∧
     (poll_gmail (fun _ => some (⟨[], [], [], [], [], none, 0⟩, none)) 4
        [⟨"x".toList, some 6⟩]
        (poll_gmail (fun _ => some (⟨[], [], [], [], [], none, 0⟩, none)) 3
          [⟨"x".toList, some 5⟩] []).store).store =
       (poll_gmail (fun _ => some (⟨[], [], [], [], [], none, 0⟩, none)) 3
          [⟨"x".toList, some 5⟩] []).store ∧
     (poll_gmail (fun _ => some (⟨[], [], [], [], [], none, 0⟩, none)) 4
        [⟨"x".toList, some 6⟩]
        (poll_gmail (fun _ => some (⟨[], [], [], [], [], none, 0⟩, none)) 3
          [⟨"x".toList, some 5⟩] []).store).attempted = [] ∧
     save_email (poll_gmail (fun _ => some (⟨[], [], [], [], [], none, 0⟩, none)) 3
        [⟨"x".toList, some 5⟩] []).store
        ⟨[], [], [], [], [], some "x".toList, 0⟩ =
       (poll_gmail (fun _ => some (⟨[], [], [], [], [], none, 0⟩, none)) 3
          [⟨"x".toList, some 5⟩] []).store) :=
  ⟨rfl, rfl,
    claim_C7 [] "x".toList (some 5) (some 6) ⟨[], [], [], [], [], none, 0⟩
      ⟨[], [], [], [], [], some "x".toList, 0⟩ 3 4 rfl rfl⟩

/-- The non-empty branch of `get_email_history`, written out. -/
theorem get_email_history_eq (store : List EmailRec) (email : List Char)
    (h : ¬ (fetchRows store email).isEmpty = true) :
    get_email_history store email 10 =
      ((fetchRows store email).take 3 ++
        (((((fetchRows store email).drop 3).map
              (fun row => (priorityScore row.situation, row))).insertionSort
            scoreGe).take (10 - ((fetchRows store email).take 3).length)).map
          Prod.snd).insertionSort chronoLe := by
  unfold get_email_history
  rw [if_neg h]

/-- Claim C4: `get_email_history` keeps the 3 most recent rows
unconditionally, fills the remaining capacity (total 10) with older rows
whose situation priority (new_order/discount_request = 3,
payment_question/shipping_timeline = 2, other = 1,
tracking/payment_received = 0) dominates every unchosen older row, and
returns the combined selection sorted chronologically oldest first. -/
theorem claim_C4 (store : List EmailRec) (email : List Char) :
    (priorityScore "new_order".toList = 3 ∧
     priorityScore "discount_request".toList = 3 ∧
     priorityScore "payment_question".toList = 2 ∧
     priorityScore "shipping_timeline".toList = 2 ∧
     priorityScore "other".toList = 1 ∧
     priorityScore "tracking".toList = 0 ∧
     priorityScore "payment_received".toList = 0) ∧
    ∃ sel rej : List EmailRec,
      ((fetchRows store email).drop 3).Perm (sel ++ rej) ∧
      (get_email_history store email 10).Perm
        ((fetchRows store email).take 3 ++ sel) ∧
      sel.length = min 7 ((fetchRows store email).drop 3).length ∧
      (∀ x ∈ sel, ∀ y ∈ rej,
        priorityScore y.situation ≤ priorityScore x.situation) ∧
      (get_email_history store email 10).length =
        min (fetchRows store email).length 10 ∧
      List.Sorted chronoLe (get_email_history store email 10) := by
  refine ⟨by decide, ?_⟩
  by_cases hrows : (fetchRows store email).isEmpty = true
  · have hnil : fetchRows store email = [] := by
      simpa using hrows
    have hres : get_email_history store email 10 = [] := by
      unfold get_email_history
      rw [if_pos hrows]
    refine ⟨[], [], ?_, ?_, ?_, ?_, ?_, ?_⟩ <;>
      simp [hres, hnil, List.Sorted]
  · set rows := fetchRows store email with hrowsdef
    set recent := rows.take 3 with hrecent
    set earlier := rows.drop 3 with hearlier
    set scored := earlier.map (fun row => (priorityScore row.situation, row))
      with hscored
    set ss := scored.insertionSort scoreGe with hss
    set k := 10 - recent.length with hk
    set sel := (ss.take k).map Prod.snd with hsel
    set rej := (ss.drop k).map Prod.snd with hrej
    have hres : get_email_history store email 10 =
        (recent ++ sel).insertionSort chronoLe := get_email_history_eq store email hrows
    have hperm_ss : ss.Perm scored := List.perm_insertionSort scoreGe scored
    have hfst : ∀ p ∈ ss, p.1 = priorityScore p.2.situation := by
      intro p hp
      have hp2 : p ∈ scored := hperm_ss.mem_iff.mp hp
      rcases List.mem_map.mp hp2 with ⟨row, _, rfl⟩
      rfl
    have hmapsnd : scored.map Prod.snd = earlier := by
      rw [hscored, List.map_map]
      exact List.map_id earlier
    have hsel_rej : earlier.Perm (sel ++ rej) := by
      have h1 : sel ++ rej = ss.map Prod.snd := by
        rw [hsel, hrej, ← List.map_append, List.take_append_drop]
      rw [h1, ← hmapsnd]
      exact (hperm_ss.map Prod.snd).symm
    have hres_perm : (get_email_history store email 10).Perm (recent ++ sel) := by
      rw [hres]
      exact List.perm_insertionSort _ _
    have hlen_ss : ss.length = earlier.length := by
      rw [hperm_ss.length_eq, hscored, List.length_map]
    have hsel_len : sel.length = min 7 earlier.length := by
      rw [hsel, List.length_map, List.length_take, hlen_ss, hk, hrecent,
        List.length_take, hearlier, List.length_drop]
      omega
    have hdom : ∀ x ∈ sel, ∀ y ∈ rej,
        priorityScore y.situation ≤ priorityScore x.situation := by
      have hsorted : List.Sorted scoreGe ss :=
        List.sorted_insertionSort scoreGe scored
      have hpair : List.Pairwise scoreGe (ss.take k ++ ss.drop k) := by
        rw [List.take_append_drop]
        exact hsorted
      have hcross := (List.pairwise_append.mp hpair).2.2
      intro x hx y hy
      rcases List.mem_map.mp hx with ⟨px, hpx, rfl⟩
      rcases List.mem_map.mp hy with ⟨py, hpy, rfl⟩
      have h1 := hfst px (List.take_subset k ss hpx)
      have h2 := hfst py (List.drop_subset k ss hpy)
      have h3 : scoreGe px py := hcross px hpx py hpy
      rw [← h1, ← h2]
      exact h3
    have hlen : (get_email_history store email 10).length = min rows.length 10 := by
      rw [hres_perm.length_eq, List.length_append, hsel_len, hrecent,
        List.length_take, hearlier, List.length_drop]
      omega
    have hsorted_res : List.Sorted chronoLe (get_email_history store email 10) := by
      rw [hres]
      exact List.sorted_insertionSort chronoLe _
    exact ⟨sel, rej, hsel_rej, hres_perm, hsel_len, hdom, hlen, hsorted_res⟩

/-- Claim C10: every row returned by `get_email_history` comes from the
50-row window `fetchRows` (the client's 50 most recent rows); a record
older than the client's 50 most recent is never returned, whatever its
priority. -/
theorem claim_C10 (store : List EmailRec) (email : List Char) (r : EmailRec)
    (hr : r ∈ get_email_history store email 10) : r ∈ fetchRows store email := by
  by_cases hrows : (fetchRows store email).isEmpty = true
  · unfold get_email_history at hr
    rw [if_pos hrows] at hr
    cases hr
  · rw [get_email_history_eq store email hrows] at hr
    have hr2 := (List.perm_insertionSort chronoLe _).mem_iff.mp hr
    rcases List.mem_append.mp hr2 with h | h
    · exact List.take_subset 3 _ h
    · rcases List.mem_map.mp h with ⟨p, hp, rfl⟩
      have hp2 := List.take_subset _ _ hp
      have hp3 := (List.perm_insertionSort scoreGe _).mem_iff.mp hp2
      rcases List.mem_map.mp hp3 with ⟨row, hrow, rfl⟩
      exact List.drop_subset 3 _ hrow

/-- Witness for C10 at a one-row store. -/
theorem claim_C10_witness :
    (⟨"a@b.com".toList, "inbound".toList, [], [], "other".toList, none, 1⟩ :
        EmailRec) ∈
      get_email_history
        [⟨"a@b.com".toList, "inbound".toList, [], [], "other".toList, none, 1⟩]
        "a@b.com".toList 10 ∧
    (⟨"a@b.com".toList, "inbound".toList, [], [], "other".toList, none, 1⟩ :
        EmailRec) ∈
      fetchRows
        [⟨"a@b.com".toList, "inbound".toList, [], [], "other".toList, none, 1⟩]
        "a@b.com".toList :=
  ⟨by decide,
    claim_C10 _ _ _ (by decide)⟩

/-- Claim C5 (counterexample): the claim says a field present under an
alias is resolved to that value, with the default only when absent.  For
the payload `{"situation": ""}` the key is present (and not null), so the
claim's resolution (`spec_resolve`) yields `""` — but the code's `or`
fallback is by Python truthiness, so the normaliser yields `"other"`. -/
theorem claim_C5_counterexample :
    (normalize_classification [("situation".toList, PyVal.pystr [])]).situation =
      PyVal.pystr "other".toList ∧
    spec_resolve [("situation".toList, PyVal.pystr [])] situationKeys
      (PyVal.pystr "other".toList) = PyVal.pystr [] ∧
    PyVal.pystr "other".toList ≠ PyVal.pystr [] := by
  refine ⟨rfl, rfl, ?_⟩
  intro h
  injection h with h2
  exact (by decide : "other".toList ≠ ([] : List Char)) h2

/-- Claim C5 (amended): normalisation is total over untyped payloads and
resolves every field by exact key-alias match at the top level first, then
by a one-level scan of nested maps, and otherwise takes its default (null
for the optional text fields, `"other"` for situation, `true` for
needs_reply) — except that `situation` and `client_email` additionally fall
back to their default when the alias-matched value is Python-falsy (for
example the empty string).  In particular the payload carrying only the
aliases `customer_email` and `classification` yields `client_email` and
`situation` from those aliases. -/
theorem claim_C5_amended :
    (∀ data, (normalize_classification data).needs_reply =
        (find_value data ["needs_reply".toList]).getD (PyVal.pybool true)) ∧
    (∀ data, (normalize_classification data).situation =
        (match find_value data situationKeys with
         | some v => if pyTruthy v then v else PyVal.pystr "other".toList
         | none => PyVal.pystr "other".toList)) ∧
    (∀ data, (normalize_classification data).client_email =
        (match find_value data clientEmailKeys with
         | some v => if pyTruthy v then v else PyVal.pystr []
         | none => PyVal.pystr [])) ∧
    (∀ data, (normalize_classification data).client_name =
        find_value data clientNameKeys) ∧
    (∀ data, (normalize_classification data).order_id =
        find_value data orderIdKeys) ∧
    (∀ data, (normalize_classification data).price =
        find_value data priceKeys) ∧
    (∀ data, (normalize_classification data).customer_street =
        find_value data streetKeys) ∧
    (∀ data, (normalize_classification data).customer_city_state_zip =
        find_value data cszKeys) ∧
    (∀ data, (normalize_classification data).items =
        find_value data itemsKeys) ∧
    (∀ data keys v, keys.findSome? (lookupNotNone data) = some v →
        find_value data keys = some v) ∧
    (∀ data keys, keys.findSome? (lookupNotNone data) = none →
        find_value data keys =
          data.findSome? (fun kv =>
            match kv.2 with
            | PyVal.pydict d => keys.findSome? (fun key => lookupNotNone d key)
            | _ => none)) ∧
    (normalize_classification
        [("customer_email".toList, PyVal.pystr "a@b.com".toList),
         ("classification".toList, PyVal.pystr "tracking".toList)]).client_email =
      PyVal.pystr "a@b.com".toList ∧
    (normalize_classification
        [("customer_email".toList, PyVal.pystr "a@b.com".toList),
         ("classification".toList, PyVal.pystr "tracking".toList)]).situation =
      PyVal.pystr "tracking".toList := by
  refine ⟨fun _ => rfl, fun _ => rfl, fun _ => rfl, fun _ => rfl, fun _ => rfl,
    fun _ => rfl, fun _ => rfl, fun _ => rfl, fun _ => rfl, ?_, ?_, rfl, rfl⟩
  · intro data keys v h
    unfold find_value
    rw [h]
  · intro data keys h
    unfold find_value
    rw [h]

theorem formatF2_shape (q : ℚ) :
    ∃ ip frac, formatF2 q = ip ++ '.' :: frac ∧ frac.length = 2 := by
  refine ⟨(if roundHalfEven (q * 100) < 0 then ['-'] else []) ++
    natToChars ((roundHalfEven (q * 100)).natAbs / 100),
    twoPad ((roundHalfEven (q * 100)).natAbs % 100), ?_, ?_⟩
  · unfold formatF2
    rw [List.append_assoc]
  · exact twoPad_length _ (Nat.mod_lt _ (by norm_num))

theorem REPLY_TEMPLATES_mem (s p t : List Char)
    (ht : REPLY_TEMPLATES s p = some t) :
    t = tmplNewOrderPrepay ∨ t = tmplNewOrderPostpay := by
  unfold REPLY_TEMPLATES at ht
  split at ht
  · exact Or.inl (Option.some_injective _ ht).symm
  · split at ht
    · exact Or.inr (Option.some_injective _ ht).symm
    · cases ht

/-- Claim C1: for a found client and a matching template, the discount is
applied exactly when `discount_percent > 0`, `discount_orders_left > 0` and
the parsed price (price text with the currency symbol and thousands
separators stripped) is positive; when applied, the substituted final
price is the currency symbol followed by `price * (1 - discount/100)`
formatted with exactly two decimal places; otherwise the substituted final
price is the original price text and the displayed discount is `"0"`. -/
theorem claim_C1 (db : List Client) (c : EmailClassification) (cl : Client)
    (t : List Char)
    (hnr : c.needs_reply = true)
    (hcl : get_client db c.client_email = some cl)
    (ht : REPLY_TEMPLATES c.situation cl.payment_type = some t) :
    let price := c.price.getD []
    let pn := priceNum price
    let app := applyDiscountB cl.discount_percent cl.discount_orders_left pn
    ((app = true) ↔
      (0 < cl.discount_percent ∧ 0 < cl.discount_orders_left ∧ 0 < pn)) ∧
    (process_classified_email db c).1.draft_reply = some (procReply t c cl) ∧
    (∃ final_price discount_str : List Char,
      procReply t c cl =
        (if app = false ∧ price ≠ [] then
          replaceAll (price ++ noDiscountMid ++ price) price
            (fillTemplate t price discount_str final_price cl.zelle_address
              (nameFallback c.client_name cl.name) (c.customer_street.getD [])
              (c.customer_city_state_zip.getD []))
        else
          fillTemplate t price discount_str final_price cl.zelle_address
            (nameFallback c.client_name cl.name) (c.customer_street.getD [])
            (c.customer_city_state_zip.getD [])) ∧
      (app = true →
        final_price =
          '$' :: formatF2 (pn * (1 - (cl.discount_percent : ℚ) / 100)) ∧
        discount_str = intToChars cl.discount_percent ∧
        ∃ ip frac, final_price = '$' :: (ip ++ '.' :: frac) ∧
          frac.length = 2) ∧
      (app = false → final_price = price ∧ discount_str = ['0'])) := by
  intro price pn app
  refine ⟨applyDiscountB_iff _ _ _, ?_, ?_⟩
  · rw [process_eq db c cl t hnr hcl ht]
  · refine ⟨if app then finalPriceVal cl.discount_percent pn else price,
      if app then intToChars cl.discount_percent else ['0'], rfl, ?_, ?_⟩
    · intro happ
      rw [if_pos happ, if_pos happ]
      obtain ⟨ip, frac, he, hl⟩ :=
        formatF2_shape (pn * (1 - (cl.discount_percent : ℚ) / 100))
      exact ⟨rfl, rfl, ip, frac, by unfold finalPriceVal; rw [he], hl⟩
    · intro happf
      rw [if_neg (by simp [happf]), if_neg (by simp [happf])]
      exact ⟨rfl, rfl⟩

/-- Witness for C1: prepay client with a 5 percent discount and two orders
left on a 200.00 order. -/
theorem claim_C1_witness :
    emailOrderW.needs_reply = true ∧
    get_client [clientTwoLeftW] emailOrderW.client_email = some clientTwoLeftW ∧
    REPLY_TEMPLATES emailOrderW.situation clientTwoLeftW.payment_type =
      some tmplNewOrderPrepay ∧
    (let price := emailOrderW.price.getD []
     let pn := priceNum price
     let app := applyDiscountB clientTwoLeftW.discount_percent
       clientTwoLeftW.discount_orders_left pn
     ((app = true) ↔
       (0 < clientTwoLeftW.discount_percent ∧
         0 < clientTwoLeftW.discount_orders_left ∧ 0 < pn)) ∧
     (process_classified_email [clientTwoLeftW] emailOrderW).1.draft_reply =
       some (procReply tmplNewOrderPrepay emailOrderW clientTwoLeftW) ∧
     (∃ final_price discount_str : List Char,
       procReply tmplNewOrderPrepay emailOrderW clientTwoLeftW =
         (if app = false ∧ price ≠ [] then
           replaceAll (price ++ noDiscountMid ++ price) price
             (fillTemplate tmplNewOrderPrepay price discount_str final_price
               clientTwoLeftW.zelle_address
               (nameFallback emailOrderW.client_name clientTwoLeftW.name)
               (emailOrderW.customer_street.getD [])
               (emailOrderW.customer_city_state_zip.getD []))
         else
           fillTemplate tmplNewOrderPrepay price discount_str final_price
             clientTwoLeftW.zelle_address
             (nameFallback emailOrderW.client_name clientTwoLeftW.name)
             (emailOrderW.customer_street.getD [])
             (emailOrderW.customer_city_state_zip.getD [])) ∧
       (app = true →
         final_price = '$' :: formatF2 (pn *
           (1 - (clientTwoLeftW.discount_percent : ℚ) / 100)) ∧
         discount_str = intToChars clientTwoLeftW.discount_percent ∧
         ∃ ip frac, final_price = '$' :: (ip ++ '.' :: frac) ∧
           frac.length = 2) ∧
       (app = false → final_price = price ∧ discount_str = ['0']))) :=
  ⟨rfl, by decide, rfl,
    claim_C1 [clientTwoLeftW] emailOrderW clientTwoLeftW tmplNewOrderPrepay
      rfl (by decide) rfl⟩

/-- Evaluation of the parsed price of the fixture order (the `ℚ`
operations are irreducible, so this is proved by `norm_num` after the
string processing is evaluated). -/
theorem priceNum_order_eval : priceNum "$200.00".toList = 200 := by
  have h3 : parsePyFloat (priceClean "$200.00".toList) = some 200 := by
    show (if ("200".toList ≠ [] ∨ "00".toList ≠ []) ∧ allDigits "200".toList ∧
        allDigits "00".toList then
      some ((digitsVal "200".toList : ℚ) +
        (digitsVal "00".toList : ℚ) / (10 : ℚ) ^ ("00".toList).length)
      else none) = some 200
    rw [if_pos (by decide)]
    have hd1 : digitsVal "200".toList = 200 := by decide
    have hd2 : digitsVal "00".toList = 0 := by decide
    have hd3 : ("00".toList).length = 2 := by decide
    rw [hd1, hd2, hd3]
    norm_num
  show (parsePyFloat (priceClean "$200.00".toList)).getD 0 = 200
  rw [h3]
  rfl

/-- Claim C2: a qualifying discounted order decrements
`discount_orders_left` by exactly one, and exactly when the counter
reaches 0 in that same update, `discount_percent` is reset to 0, as seen
by a re-fetch of the client after processing. -/
theorem claim_C2 (db : List Client) (c : EmailClassification) (cl : Client)
    (t : List Char) (n : Int)
    (hnr : c.needs_reply = true)
    (hcl : get_client db c.client_email = some cl)
    (ht : REPLY_TEMPLATES c.situation cl.payment_type = some t)
    (hn : cl.discount_orders_left = n)
    (hpos : 0 < n)
    (hd : 0 < cl.discount_percent)
    (hp : 0 < priceNum (c.price.getD [])) :
    get_client (process_classified_email db c).2 c.client_email =
      some { cl with
        discount_orders_left := n - 1
        discount_percent := if n - 1 = 0 then 0 else cl.discount_percent } := by
  have happ : applyDiscountB cl.discount_percent cl.discount_orders_left
      (priceNum (c.price.getD [])) = true :=
    (applyDiscountB_iff _ _ _).mpr ⟨hd, hn ▸ hpos, hp⟩
  rw [process_eq db c cl t hnr hcl ht]
  show get_client
    (if applyDiscountB cl.discount_percent cl.discount_orders_left
        (priceNum (c.price.getD []))
     then decrement_discount db c.client_email else db) c.client_email = _
  rw [if_pos happ, get_client_decrement db c.client_email, hcl]
  show some (decClient cl) = _
  unfold decClient
  rw [if_pos (by rw [hn]; exact hpos), hn]

/-- Witness for C2: the spec scenario — discount 5 percent, one order
left, qualifying 200.00 order; the re-fetched client shows
`discount_orders_left = 0` and `discount_percent = 0`. -/
theorem claim_C2_witness :
    emailOrderW.needs_reply = true ∧
    get_client [clientOneLeftW] emailOrderW.client_email = some clientOneLeftW ∧
    REPLY_TEMPLATES emailOrderW.situation clientOneLeftW.payment_type =
      some tmplNewOrderPrepay ∧
    clientOneLeftW.discount_orders_left = 1 ∧
    (0 : Int) < 1 ∧
    0 < clientOneLeftW.discount_percent ∧
    (0 : ℚ) < priceNum (emailOrderW.price.getD []) ∧
    (get_client (process_classified_email [clientOneLeftW] emailOrderW).2
        emailOrderW.client_email =
      some { clientOneLeftW with
        discount_orders_left := (1 : Int) - 1
        discount_percent :=
          if (1 : Int) - 1 = 0 then 0 else clientOneLeftW.discount_percent }) :=
  ⟨rfl, by decide, rfl, rfl, by decide, by decide,
    by
      rw [show priceNum (emailOrderW.price.getD []) = 200 from
        priceNum_order_eval]
      decide,
    claim_C2 [clientOneLeftW] emailOrderW clientOneLeftW tmplNewOrderPrepay 1
      rfl (by decide) rfl rfl (by decide) (by decide)
      (by
        rw [show priceNum (emailOrderW.price.getD []) = 200 from
          priceNum_order_eval]
        decide)⟩

/-- When the discount is not applied, the draft is the template filled with
the original price text, displayed discount `"0"`, and the price-line
clean-up applied if the price text is non-empty. -/
theorem procReply_no_discount (t : List Char) (c : EmailClassification)
    (cl : Client)
    (happf : applyDiscountB cl.discount_percent cl.discount_orders_left
      (priceNum (c.price.getD [])) = false) :
    procReply t c cl =
      if c.price.getD [] ≠ [] then
        replaceAll (c.price.getD [] ++ noDiscountMid ++ c.price.getD [])
          (c.price.getD [])
          (fillTemplate t (c.price.getD []) ['0'] (c.price.getD [])
            cl.zelle_address (nameFallback c.client_name cl.name)
            (c.customer_street.getD []) (c.customer_city_state_zip.getD []))
      else
        fillTemplate t (c.price.getD []) ['0'] (c.price.getD [])
          cl.zelle_address (nameFallback c.client_name cl.name)
          (c.customer_street.getD []) (c.customer_city_state_zip.getD []) := by
  simp only [procReply, happf, Bool.false_eq_true, if_false,
    eq_self_iff_true, true_and]

/-- Claim C8: a price text that is not a well-formed number after
stripping the currency symbol and thousands separators is treated as
zero; the discount is skipped, the client table is unchanged, the
template is still used, and the substituted final price is the original
price text with displayed discount `"0"` (no exception is modelled:
every function here is total, mirroring the `except` fallback). -/
theorem claim_C8 (db : List Client) (c : EmailClassification) (cl : Client)
    (t : List Char)
    (hnr : c.needs_reply = true)
    (hcl : get_client db c.client_email = some cl)
    (ht : REPLY_TEMPLATES c.situation cl.payment_type = some t)
    (hbad : parsePyFloat (priceClean (c.price.getD [])) = none) :
    priceNum (c.price.getD []) = 0 ∧
    applyDiscountB cl.discount_percent cl.discount_orders_left
      (priceNum (c.price.getD [])) = false ∧
    (process_classified_email db c).2 = db ∧
    (process_classified_email db c).1.template_used = true ∧
    (process_classified_email db c).1.draft_reply = some (procReply t c cl) ∧
    procReply t c cl =
      (if c.price.getD [] ≠ [] then
        replaceAll (c.price.getD [] ++ noDiscountMid ++ c.price.getD [])
          (c.price.getD [])
          (fillTemplate t (c.price.getD []) ['0'] (c.price.getD [])
            cl.zelle_address (nameFallback c.client_name cl.name)
            (c.customer_street.getD []) (c.customer_city_state_zip.getD []))
      else
        fillTemplate t (c.price.getD []) ['0'] (c.price.getD [])
          cl.zelle_address (nameFallback c.client_name cl.name)
          (c.customer_street.getD []) (c.customer_city_state_zip.getD [])) := by
  have hzero : priceNum (c.price.getD []) = 0 := by
    unfold priceNum
    rw [hbad]
    rfl
  have happf : applyDiscountB cl.discount_percent cl.discount_orders_left
      (priceNum (c.price.getD [])) = false := by
    rw [hzero]
    exact applyDiscountB_price_zero _ _
  refine ⟨hzero, happf, ?_, ?_, ?_, procReply_no_discount t c cl happf⟩
  · rw [process_eq db c cl t hnr hcl ht]
    show (if applyDiscountB cl.discount_percent cl.discount_orders_left
        (priceNum (c.price.getD []))
      then decrement_discount db c.client_email else db) = db
    rw [if_neg (by simp [happf])]
  · rw [process_eq db c cl t hnr hcl ht]
  · rw [process_eq db c cl t hnr hcl ht]

/-- Witness for C8: price text `"abc"`. -/
theorem claim_C8_witness :
    emailBadPriceW.needs_reply = true ∧
    get_client [clientTwoLeftW] emailBadPriceW.client_email =
      some clientTwoLeftW ∧
    REPLY_TEMPLATES emailBadPriceW.situation clientTwoLeftW.payment_type =
      some tmplNewOrderPrepay ∧
    parsePyFloat (priceClean (emailBadPriceW.price.getD [])) = none ∧
    (priceNum (emailBadPriceW.price.getD []) = 0 ∧
     applyDiscountB clientTwoLeftW.discount_percent
       clientTwoLeftW.discount_orders_left
       (priceNum (emailBadPriceW.price.getD [])) = false ∧
     (process_classified_email [clientTwoLeftW] emailBadPriceW).2 =
       [clientTwoLeftW] ∧
     (process_classified_email [clientTwoLeftW] emailBadPriceW).1.template_used
       = true ∧
     (process_classified_email [clientTwoLeftW] emailBadPriceW).1.draft_reply =
       some (procReply tmplNewOrderPrepay emailBadPriceW clientTwoLeftW) ∧
     procReply tmplNewOrderPrepay emailBadPriceW clientTwoLeftW =
       (if emailBadPriceW.price.getD [] ≠ [] then
         replaceAll (emailBadPriceW.price.getD [] ++ noDiscountMid ++
             emailBadPriceW.price.getD [])
           (emailBadPriceW.price.getD [])
           (fillTemplate tmplNewOrderPrepay (emailBadPriceW.price.getD [])
             ['0'] (emailBadPriceW.price.getD [])
             clientTwoLeftW.zelle_address
             (nameFallback emailBadPriceW.client_name clientTwoLeftW.name)
             (emailBadPriceW.customer_street.getD [])
             (emailBadPriceW.customer_city_state_zip.getD []))
       else
         fillTemplate tmplNewOrderPrepay (emailBadPriceW.price.getD [])
           ['0'] (emailBadPriceW.price.getD [])
           clientTwoLeftW.zelle_address
           (nameFallback emailBadPriceW.client_name clientTwoLeftW.name)
           (emailBadPriceW.customer_street.getD [])
           (emailBadPriceW.customer_city_state_zip.getD []))) :=
  ⟨rfl, by decide, rfl, by decide,
    claim_C8 [clientTwoLeftW] emailBadPriceW clientTwoLeftW tmplNewOrderPrepay
      rfl (by decide) rfl (by decide)⟩

/-- Claim C9: with `discount_orders_left = 0` no discount is applied,
whatever `discount_percent` and the price; the client table — and hence
every field of the client record — is unchanged, and the draft shows the
original price with displayed discount `"0"`. -/
theorem claim_C9 (db : List Client) (c : EmailClassification) (cl : Client)
    (t : List Char)
    (hnr : c.needs_reply = true)
    (hcl : get_client db c.client_email = some cl)
    (ht : REPLY_TEMPLATES c.situation cl.payment_type = some t)
    (hz : cl.discount_orders_left = 0) :
    applyDiscountB cl.discount_percent cl.discount_orders_left
      (priceNum (c.price.getD [])) = false ∧
    (process_classified_email db c).2 = db ∧
    (process_classified_email db c).1.template_used = true ∧
    procReply t c cl =
      (if c.price.getD [] ≠ [] then
        replaceAll (c.price.getD [] ++ noDiscountMid ++ c.price.getD [])
          (c.price.getD [])
          (fillTemplate t (c.price.getD []) ['0'] (c.price.getD [])
            cl.zelle_address (nameFallback c.client_name cl.name)
            (c.customer_street.getD []) (c.customer_city_state_zip.getD []))
      else
        fillTemplate t (c.price.getD []) ['0'] (c.price.getD [])
          cl.zelle_address (nameFallback c.client_name cl.name)
          (c.customer_street.getD []) (c.customer_city_state_zip.getD [])) := by
  have happf : applyDiscountB cl.discount_percent cl.discount_orders_left
      (priceNum (c.price.getD [])) = false := by
    rw [hz]
    exact applyDiscountB_left_zero _ _
  refine ⟨happf, ?_, ?_, procReply_no_discount t c cl happf⟩
  · rw [process_eq db c cl t hnr hcl ht]
    show (if applyDiscountB cl.discount_percent cl.discount_orders_left
        (priceNum (c.price.getD []))
      then decrement_discount db c.client_email else db) = db
    rw [if_neg (by simp [happf])]
  · rw [process_eq db c cl t hnr hcl ht]

/-- Witness for C9: discount percent 5 but zero orders left on a valid
order; the fixture table is returned unchanged. -/
theorem claim_C9_witness :
    emailOrderW.needs_reply = true ∧
    get_client [clientZeroLeftW] emailOrderW.client_email =
      some clientZeroLeftW ∧
    REPLY_TEMPLATES emailOrderW.situation clientZeroLeftW.payment_type =
      some tmplNewOrderPrepay ∧
    clientZeroLeftW.discount_orders_left = 0 ∧
    (applyDiscountB clientZeroLeftW.discount_percent
       clientZeroLeftW.discount_orders_left
       (priceNum (emailOrderW.price.getD [])) = false ∧
     (process_classified_email [clientZeroLeftW] emailOrderW).2 =
       [clientZeroLeftW] ∧
     (process_classified_email [clientZeroLeftW] emailOrderW).1.template_used
       = true ∧
     procReply tmplNewOrderPrepay emailOrderW clientZeroLeftW =
       (if emailOrderW.price.getD [] ≠ [] then
         replaceAll (emailOrderW.price.getD [] ++ noDiscountMid ++
             emailOrderW.price.getD [])
           (emailOrderW.price.getD [])
           (fillTemplate tmplNewOrderPrepay (emailOrderW.price.getD [])
             ['0'] (emailOrderW.price.getD [])
             clientZeroLeftW.zelle_address
             (nameFallback emailOrderW.client_name clientZeroLeftW.name)
             (emailOrderW.customer_street.getD [])
             (emailOrderW.customer_city_state_zip.getD []))
       else
         fillTemplate tmplNewOrderPrepay (emailOrderW.price.getD [])
           ['0'] (emailOrderW.price.getD [])
           clientZeroLeftW.zelle_address
           (nameFallback emailOrderW.client_name clientZeroLeftW.name)
           (emailOrderW.customer_street.getD [])
           (emailOrderW.customer_city_state_zip.getD []))) :=
  ⟨rfl, by decide, rfl, rfl,
    claim_C9 [clientZeroLeftW] emailOrderW clientZeroLeftW tmplNewOrderPrepay
      rfl (by decide) rfl rfl⟩

/-- Claim C6: for every `(situation, payment_type)` pair present in the
template table (and substituted values that do not themselves contain the
placeholder-opening brace), `process_classified_email` reports
`template_used = true` and produces a draft in which every placeholder
token of the template has been substituted (with the empty string when a
source value is absent), so no unresolved placeholder token occurs in the
draft. -/
theorem claim_C6 (db : List Client) (c : EmailClassification) (cl : Client)
    (t : List Char)
    (hnr : c.needs_reply = true)
    (hcl : get_client db c.client_email = some cl)
    (ht : REPLY_TEMPLATES c.situation cl.payment_type = some t)
    (hpr : ob ∉ c.price.getD [])
    (hz : ob ∉ cl.zelle_address)
    (hnm1 : ob ∉ c.client_name.getD [])
    (hnm2 : ob ∉ cl.name)
    (hst : ob ∉ c.customer_street.getD [])
    (hcz : ob ∉ c.customer_city_state_zip.getD []) :
    (process_classified_email db c).1.template_used = true ∧
    ∃ d : List Char,
      (process_classified_email db c).1.draft_reply = some d ∧
      ob ∉ d ∧
      ∀ tok ∈ Tokens, ¬ List.IsInfix tok d := by
  have hds : ob ∉ (if applyDiscountB cl.discount_percent
      cl.discount_orders_left (priceNum (c.price.getD [])) = true
    then intToChars cl.discount_percent else ['0']) := by
    split
    · exact ob_not_mem_intToChars _
    · decide
  have hfstr : ob ∉ (if applyDiscountB cl.discount_percent
      cl.discount_orders_left (priceNum (c.price.getD [])) = true
    then finalPriceVal cl.discount_percent (priceNum (c.price.getD []))
    else c.price.getD []) := by
    split
    · exact ob_not_mem_finalPriceVal _ _
    · exact hpr
  have hnmf : ob ∉ nameFallback c.client_name cl.name :=
    ob_not_mem_nameFallback _ _ hnm1 hnm2
  have hfill : ob ∉ fillTemplate t (c.price.getD [])
      (if applyDiscountB cl.discount_percent cl.discount_orders_left
          (priceNum (c.price.getD [])) = true
        then intToChars cl.discount_percent else ['0'])
      (if applyDiscountB cl.discount_percent cl.discount_orders_left
          (priceNum (c.price.getD [])) = true
        then finalPriceVal cl.discount_percent (priceNum (c.price.getD []))
        else c.price.getD [])
      cl.zelle_address (nameFallback c.client_name cl.name)
      (c.customer_street.getD []) (c.customer_city_state_zip.getD []) := by
    rcases REPLY_TEMPLATES_mem _ _ _ ht with rfl | rfl
    · rw [fill_prepay _ _ _ _ _ _ _ hpr hds hfstr hz hnmf hst hcz]
      apply ob_not_mem_catSegs
      intro s hs
      simp only [List.mem_cons, List.not_mem_nil, or_false] at hs
      rcases hs with rfl | rfl | rfl | rfl | rfl | rfl | rfl | rfl | rfl
      · decide
      · exact hpr
      · decide
      · exact hds
      · decide
      · exact hfstr
      · decide
      · exact hz
      · decide
    · rw [fill_postpay _ _ _ _ _ _ _ hpr hds hfstr hz hnmf hst hcz]
      apply ob_not_mem_catSegs
      intro s hs
      simp only [List.mem_cons, List.not_mem_nil, or_false] at hs
      rcases hs with
        rfl | rfl | rfl | rfl | rfl | rfl | rfl | rfl | rfl | rfl | rfl |
        rfl | rfl | rfl
      · decide
      · exact hpr
      · decide
      · exact hds
      · decide
      · exact hfstr
      · decide
      · decide
      · decide
      · exact hnmf
      · decide
      · exact hst
      · decide
      · exact hcz
  have hfree : ob ∉ procReply t c cl := by
    simp only [procReply]
    split
    · exact ob_not_mem_replaceAll _ _ _ hfill hpr
    · exact hfill
  rw [process_eq db c cl t hnr hcl ht]
  exact ⟨rfl, procReply t c cl, rfl, hfree,
    fun tok htok => not_infix_of_ob_free htok hfree⟩

/-- Witness for C6 on the prepay template with concrete brace-free data. -/
theorem claim_C6_witness :
    emailOrderW.needs_reply = true ∧
    get_client [clientTwoLeftW] emailOrderW.client_email = some clientTwoLeftW ∧
    REPLY_TEMPLATES emailOrderW.situation clientTwoLeftW.payment_type =
      some tmplNewOrderPrepay ∧
    ob ∉ emailOrderW.price.getD [] ∧
    ob ∉ clientTwoLeftW.zelle_address ∧
    ob ∉ emailOrderW.client_name.getD [] ∧
    ob ∉ clientTwoLeftW.name ∧
    ob ∉ emailOrderW.customer_street.getD [] ∧
    ob ∉ emailOrderW.customer_city_state_zip.getD [] ∧
    ((process_classified_email [clientTwoLeftW] emailOrderW).1.template_used
        = true ∧
     ∃ d : List Char,
       (process_classified_email [clientTwoLeftW] emailOrderW).1.draft_reply =
         some d ∧
       ob ∉ d ∧
       ∀ tok ∈ Tokens, ¬ List.IsInfix tok d) :=
  ⟨rfl, by decide, rfl, by decide, by decide, by decide, by decide, by decide,
    by decide,
    claim_C6 [clientTwoLeftW] emailOrderW clientTwoLeftW tmplNewOrderPrepay
      rfl (by decide) rfl (by decide) (by decide) (by decide) (by decide)
      (by decide) (by decide)⟩

end AgentOC
